import Mathlib

/-
Verification development for the batched employment-analysis pipeline of the
Data-Visualization repository (data-preprocessing service).

The embedding models, from the source:
  * the schema-normalization step of
    src/ingestion/data_loader.py (load_participant_status_logs),
  * the two batched analyses of
    src/processing/employment_processor.py
    (_calculate_turnover_rates and _analyze_employment_stability),
  * the chunk planning loop (range(0, total, batch_size) with slice),
  * the top-level control flow of src/main.py around loading failures.

Modelling conventions:
  * DataFrames are lists of typed row structures plus an explicit column-name
    list (the schema) where the schema is observable behaviour.
  * Nullable columns are Option-typed.  Floating point numbers are modelled by
    exact rationals (the spec compares means only up to floating-point
    tolerance, and the engine-exact float semantics is an explicit non-goal).
  * Timestamps are absolute instants in seconds (Nat); the calendar month of
    an instant (strftime "%Y-%m") is abstracted as an arbitrary function
    monthOf : Nat -> Nat passed as a parameter.  Tenure in whole days is the
    floored difference divided by 86400 seconds, as .dt.total_days() computes.
  * polars group_by is modelled as: distinct keys in first-occurrence order,
    each aggregated over the rows having that key.  All aggregations used by
    the source (len, mean, sum, min, max, n_unique, boolean count) are
    insensitive to the row order inside a group, so the unspecified physical
    ordering of polars groups is irrelevant; first-occurrence order is fixed
    to make the model executable and deterministic.
  * polars mean skips nulls and yields null on an all-null column; n_unique
    counts null as one of the distinct values; a filter on a null predicate
    value drops the row.  These semantics are reflected in meanOpt, nUnique
    and the Option-valued filters below.
-/

namespace DataViz

/-- Remove duplicates from a list keeping the first occurrence of each
element.  Models the deduplication performed by DataFrame.unique() and the
key enumeration of group_by (order inside the result is irrelevant to every
aggregation used by the source, see header comment). -/
def firstDedup {α : Type} [DecidableEq α] : List α → List α
  | [] => []
  | a :: as => a :: (firstDedup as).filter (fun b => b ≠ a)

/-- Count of distinct values in a column, null included, as polars
Expr.n_unique computes it. -/
def nUnique {α : Type} [DecidableEq α] (l : List α) : Nat :=
  (firstDedup l).length

/-- Mean of a nullable numeric column with polars semantics: nulls are
skipped; the mean of an empty or all-null column is null. -/
def meanOpt (l : List (Option ℚ)) : Option ℚ :=
  let v := l.filterMap id
  if v.length = 0 then none else some (v.sum / (v.length : ℚ))

/-- Minimum of a column ignoring nothing (callers pass the non-null
timestamps); null when the list is empty, as polars min over an all-null
column is null. -/
def listMinOpt : List Nat → Option Nat
  | [] => none
  | a :: as =>
    match listMinOpt as with
    | none => some a
    | some m => some (min a m)

/-- Maximum counterpart of listMinOpt. -/
def listMaxOpt : List Nat → Option Nat
  | [] => none
  | a :: as =>
    match listMaxOpt as with
    | none => some a
    | some m => some (max a m)

/-- polars group_by(key).agg(...): the distinct keys in first-occurrence
order, each aggregated over the sub-list of rows carrying that key. -/
def groupByAgg {α κ β : Type} [DecidableEq κ] (key : α → κ) (agg : κ → List α → β)
    (rows : List α) : List β :=
  (firstDedup (rows.map key)).map (fun k => agg k (rows.filter (fun r => key r = k)))

/-- Number of iterations of the batch loop: range(0, total, size) has
ceil(total / size) iterations for a positive step. -/
def numChunks (total size : Nat) : Nat := (total + size - 1) / size

/-- The chunk plan of the batch loops of _calculate_turnover_rates and
_analyze_employment_stability: for batch_start in range(0, total, size),
batch_end = min(batch_start + size, total), yielding the half-open row
range [batch_start, batch_end). -/
def plan (total size : Nat) : List (Nat × Nat) :=
  (List.range' 0 (numChunks total size) size).map (fun st => (st, min (st + size) total))

/-- DataFrame.slice(start, end - start): the rows of the half-open range. -/
def sliceOf {α : Type} (rows : List α) (r : Nat × Nat) : List α :=
  (rows.drop r.1).take (r.2 - r.1)

/-- The list of chunks the batch loop iterates over. -/
def chunksOf {α : Type} (size : Nat) (rows : List α) : List (List α) :=
  (plan rows.length size).map (sliceOf rows)

/-! ## Normalized participant status rows (the columns the employment
analyses read). -/

/-- A row of the normalized participant status log, restricted to the
columns consumed by the employment analyses (participantId, timestamp,
apartmentId, jobId, availableBalance).  The remaining categorical columns
(currentLocation, currentMode, hungerStatus, sleepStatus, financialStatus)
are untouched pass-through strings never read by the modelled code. -/
structure StatusRow where
  participantId : Option Int
  timestamp : Option Nat
  apartmentId : Option Int
  jobId : Option Int
  availableBalance : Option ℚ
deriving DecidableEq, Repr

/-! ## Stability analysis (_analyze_employment_stability). -/

/-- The grouping key of the per-chunk stability aggregation:
(participantId, strftime("%Y-%m", timestamp)); a null timestamp yields a
null month and nulls form their own group. -/
def monthKey (monthOf : Nat → Nat) (r : StatusRow) : Option Int × Option Nat :=
  (r.participantId, r.timestamp.map monthOf)

/-- The is_employed indicator column: jobId.is_not_null() as 0/1. -/
def isEmployedInd (r : StatusRow) : ℚ :=
  if r.jobId.isSome then 1 else 0

/-- One row of a per-chunk stability partial aggregate. -/
structure StabPartialRow where
  participantId : Option Int
  month : Option Nat
  employment_rate : Option ℚ
  job_changes : Nat
  avg_balance : Option ℚ
deriving DecidableEq, Repr

/-- The per-group aggregation of the stability phase 1:
mean(is_employed), n_unique(jobId), mean(availableBalance). -/
def stabAgg (k : Option Int × Option Nat) (g : List StatusRow) : StabPartialRow :=
  { participantId := k.1
    month := k.2
    employment_rate := meanOpt (g.map (fun r => some (isEmployedInd r)))
    job_changes := nUnique (g.map (fun r => r.jobId))
    avg_balance := meanOpt (g.map (fun r => r.availableBalance)) }

/-- Phase 1 of the stability analysis on one chunk: group by
(participantId, month), aggregate, then filter employment_rate non-null. -/
def batchStability (monthOf : Nat → Nat) (c : List StatusRow) : List StabPartialRow :=
  (groupByAgg (monthKey monthOf) stabAgg c).filter (fun b => b.employment_rate.isSome)

/-- The pool of all per-chunk stability partial rows, in chunk order
(pl.concat of the non-empty batch results; empty batch results contribute
nothing either way). -/
def stabilityPool (monthOf : Nat → Nat) (bs : Nat) (rows : List StatusRow) :
    List StabPartialRow :=
  ((chunksOf bs rows).map (batchStability monthOf)).flatten

/-- The phase-2 grouping key over the pool: the same (participantId, month). -/
def stabKey2 (b : StabPartialRow) : Option Int × Option Nat :=
  (b.participantId, b.month)

/-- Phase-2 re-aggregation of the pool: mean of the per-chunk
employment_rates (unweighted), sum of the per-chunk job_changes, mean of
the per-chunk avg_balances (nulls skipped). -/
def stabAgg2 (k : Option Int × Option Nat) (g : List StabPartialRow) : StabPartialRow :=
  { participantId := k.1
    month := k.2
    employment_rate := meanOpt (g.map (fun b => b.employment_rate))
    job_changes := (g.map (fun b => b.job_changes)).sum
    avg_balance := meanOpt (g.map (fun b => b.avg_balance)) }

/-- One row of the final stability table, after with_columns adds
stability_score := employment_rate. -/
structure StabFinalRow where
  participantId : Option Int
  month : Option Nat
  employment_rate : Option ℚ
  job_changes : Nat
  avg_balance : Option ℚ
  stability_score : Option ℚ
deriving DecidableEq, Repr

/-- The with_columns step defining the stability score as the employment
rate. -/
def addStabilityScore (b : StabPartialRow) : StabFinalRow :=
  { participantId := b.participantId
    month := b.month
    employment_rate := b.employment_rate
    job_changes := b.job_changes
    avg_balance := b.avg_balance
    stability_score := b.employment_rate }

/-- A stability DataFrame: its column names plus its typed rows. -/
structure StabDF where
  schema : List String
  rows : List StabFinalRow
deriving DecidableEq, Repr

/-- _analyze_employment_stability: chunk the table, aggregate each chunk,
pool the partial aggregates, and re-aggregate; an empty pool yields the
explicitly constructed empty frame (whose literal columns lack
stability_score). -/
def analyze_employment_stability (monthOf : Nat → Nat) (bs : Nat)
    (rows : List StatusRow) : StabDF :=
  let pool := stabilityPool monthOf bs rows
  if pool.isEmpty then
    { schema := ["participantId", "month", "employment_rate", "job_changes", "avg_balance"]
      rows := [] }
  else
    { schema := ["participantId", "month", "employment_rate", "job_changes",
                 "avg_balance", "stability_score"]
      rows := ((groupByAgg stabKey2 stabAgg2 pool).filter
                 (fun b => b.employment_rate.isSome)).map addStabilityScore }

/-! ## Turnover analysis (_calculate_turnover_rates). -/

/-- The filter + select + unique() prefix of a turnover batch: keep rows
with a non-null jobId, project to (participantId, timestamp, jobId), and
deduplicate. -/
def employedTriples (c : List StatusRow) : List (Option Int × Option Nat × Int) :=
  firstDedup (c.filterMap (fun r => r.jobId.map (fun j => (r.participantId, r.timestamp, j))))

/-- A unique employment observation after the employer lookup
(map_elements over the job-to-employer dict followed by filtering null
employers). -/
structure EmploymentPeriod where
  participantId : Option Int
  timestamp : Option Nat
  jobId : Int
  employerId : Int
deriving DecidableEq, Repr

/-- Resolve the employer of each unique observation through the lookup and
drop observations whose jobId the lookup does not know. -/
def employmentPeriods (lookup : Int → Option Int) (c : List StatusRow) :
    List EmploymentPeriod :=
  (employedTriples c).filterMap
    (fun t => (lookup t.2.2).map
      (fun e => { participantId := t.1, timestamp := t.2.1, jobId := t.2.2, employerId := e }))

/-- The phase-1 turnover grouping key (participantId, jobId, employerId). -/
def tenureKey (x : EmploymentPeriod) : Option Int × Int × Int :=
  (x.participantId, x.jobId, x.employerId)

/-- A grouped turnover row before the tenure columns are added: min and
max observed timestamps (null when every timestamp in the group is null). -/
structure TenureAgg where
  participantId : Option Int
  jobId : Int
  employerId : Int
  start_date : Option Nat
  end_date : Option Nat
deriving DecidableEq, Repr

/-- The agg step of the turnover phase 1: timestamp.min() and
timestamp.max() per (participantId, jobId, employerId) group. -/
def tenureAgg (k : Option Int × Int × Int) (g : List EmploymentPeriod) : TenureAgg :=
  { participantId := k.1
    jobId := k.2.1
    employerId := k.2.2
    start_date := listMinOpt (g.filterMap (fun x => x.timestamp))
    end_date := listMaxOpt (g.filterMap (fun x => x.timestamp)) }

/-- A surviving job tenure record of one batch: tenure in whole days and
the month of the start date. -/
structure JobTenureRecord where
  participantId : Option Int
  jobId : Int
  employerId : Int
  start_date : Nat
  end_date : Nat
  tenure_days : Int
  start_month : Nat
deriving DecidableEq, Repr

/-- Timestamps are modelled in seconds; total_days() of a duration floors
the difference divided by the seconds of a day. -/
def secondsPerDay : Int := 86400

/-- The with_columns + filter suffix of the turnover phase 1: compute
tenure_days = total_days(end - start) and start_month = strftime(start),
both null when the dates are null, then keep rows with tenure_days >= 0
(a null tenure fails the comparison and is dropped). -/
def tenureFinalize (monthOf : Nat → Nat) (a : TenureAgg) : Option JobTenureRecord :=
  match a.start_date, a.end_date with
  | some s, some e =>
    let d : Int := ((e : Int) - (s : Int)) / secondsPerDay
    if 0 ≤ d then
      some { participantId := a.participantId, jobId := a.jobId, employerId := a.employerId
             start_date := s, end_date := e, tenure_days := d, start_month := monthOf s }
    else none
  | _, _ => none

/-- Phase 1 of the turnover analysis on one chunk. -/
def batchTenure (monthOf : Nat → Nat) (lookup : Int → Option Int) (c : List StatusRow) :
    List JobTenureRecord :=
  (groupByAgg tenureKey tenureAgg (employmentPeriods lookup c)).filterMap
    (tenureFinalize monthOf)

/-- The pool of all per-chunk job tenure records (pl.concat of the
non-empty batch tenures). -/
def turnoverPool (monthOf : Nat → Nat) (lookup : Int → Option Int) (bs : Nat)
    (rows : List StatusRow) : List JobTenureRecord :=
  ((chunksOf bs rows).map (batchTenure monthOf lookup)).flatten

/-- The phase-2 turnover grouping key (start_month, employerId). -/
def turnKey2 (t : JobTenureRecord) : Nat × Int :=
  (t.start_month, t.employerId)

/-- One row of the final turnover table. -/
structure TurnoverRow where
  month : Nat
  employerId : Int
  new_hires : Nat
  avg_tenure_days : ℚ
  turnover_rate : ℚ
deriving DecidableEq, Repr

/-- Phase-2 re-aggregation of the tenure pool: new_hires = group size,
avg_tenure_days = mean tenure, turnover_rate = (count of tenure <= 30
days) / new_hires. -/
def turnAgg2 (k : Nat × Int) (g : List JobTenureRecord) : TurnoverRow :=
  { month := k.1
    employerId := k.2
    new_hires := g.length
    avg_tenure_days := (((g.map (fun t => t.tenure_days)).sum : Int) : ℚ) / (g.length : ℚ)
    turnover_rate := ((g.countP (fun t => t.tenure_days ≤ 30)) : ℚ) / (g.length : ℚ) }

/-- A turnover DataFrame: its column names plus its typed rows. -/
structure TurnoverDF where
  schema : List String
  rows : List TurnoverRow
deriving DecidableEq, Repr

/-- _calculate_turnover_rates: chunk the table, derive per-chunk tenure
records, pool them, and re-aggregate by (start_month, employerId); an
empty pool yields the explicitly constructed empty five-column frame. -/
def calculate_turnover_rates (monthOf : Nat → Nat) (lookup : Int → Option Int)
    (bs : Nat) (rows : List StatusRow) : TurnoverDF :=
  let pool := turnoverPool monthOf lookup bs rows
  if pool.isEmpty then
    { schema := ["month", "employerId", "new_hires", "avg_tenure_days", "turnover_rate"]
      rows := [] }
  else
    { schema := ["month", "employerId", "new_hires", "avg_tenure_days", "turnover_rate"]
      rows := groupByAgg turnKey2 turnAgg2 pool }

/-! ## Schema normalization (load_participant_status_logs). -/

/-- A raw CSV cell of a string-typed column: either a true null or the
literal text of the cell. -/
inductive Value where
  | VNull : Value
  | VStr : String → Value
  | VInt : Int → Value
deriving DecidableEq, Repr

/-- The sentinel strings of the identifier-absence test
is_in(["", "null", "None", None]). -/
def idSentinels : List String := ["", "null", "None"]

/-- The normalization expression applied to apartmentId and to jobId,
parameterized by the integer parser standing for cast(Int64,
strict=False): when the cell is in the sentinel set the result is null
without consulting the parser; otherwise the parser runs, a failed parse
degrading to null.  A true-null cell stays null (whether the engine
routes it through the sentinel branch or casts the null, the observable
result is null and the parser never sees a character).  An already-typed
integer cell is left unchanged. -/
def normalizeIdWith (parse : String → Option Int) : Value → Value
  | .VNull => .VNull
  | .VStr s =>
    if s ∈ idSentinels then .VNull
    else
      match parse s with
      | some n => .VInt n
      | none => .VNull
  | .VInt n => .VInt n

/-- The concrete identifier normalization with the integer parser of the
model. -/
def normalizeIdValue : Value → Value :=
  normalizeIdWith String.toInt?

/-- View a nullable string cell as a raw Value. -/
def rawToValue : Option String → Value
  | none => .VNull
  | some s => .VStr s

/-- Project a normalized Value into the typed Int64 column. -/
def valueToOptInt : Value → Option Int
  | .VInt n => some n
  | _ => none

/-- The identifier columns after normalization, as nullable integers. -/
def normalizeIdField (s : Option String) : Option Int :=
  valueToOptInt (normalizeIdValue (rawToValue s))

/-- A raw participant status row before type coercion, restricted to the
columns the employment analyses consume (every raw column is string-typed
by the declared flexible schema). -/
structure RawStatusRow where
  timestamp : Option String
  participantId : Option String
  apartmentId : Option String
  jobId : Option String
  availableBalance : Option String
deriving DecidableEq, Repr

/-- The with_columns coercion block of load_participant_status_logs:
timestamp parsed with strict=False (failure degrades to null, the row is
retained), participantId cast to Int64 with strict=False, availableBalance
cast to Float64 with strict=False, apartmentId and jobId normalized by the
sentinel test before the integer cast.  The timestamp parser of format
"%Y-%m-%dT%H:%M:%SZ" and the decimal parser are abstract parameters. -/
def normalizeStatusRow (parseTs : String → Option Nat) (parseDec : String → Option ℚ)
    (raw : RawStatusRow) : StatusRow :=
  { participantId := raw.participantId.bind String.toInt?
    timestamp := raw.timestamp.bind parseTs
    apartmentId := normalizeIdField raw.apartmentId
    jobId := normalizeIdField raw.jobId
    availableBalance := raw.availableBalance.bind parseDec }

/-- load_participant_status_logs: glob the status-log files; zero matching
files raise FileNotFoundError (a missing Activity Logs directory globs to
zero files as well); otherwise concatenate every file and normalize. -/
def load_participant_status_logs (parseTs : String → Option Nat)
    (parseDec : String → Option ℚ) (files : List (List RawStatusRow)) :
    Except String (List StatusRow) :=
  if files.isEmpty then
    .error "No participant status logs found"
  else
    .ok (files.flatten.map (normalizeStatusRow parseTs parseDec))

/-! ## Pipeline control flow (main.py and the remaining loaders).

The filesystem visible to the run is abstracted to the presence and
contents of the inputs the loaders touch.  The business and financial
processors are outside the specified core; the run result records the
exit status and the employment tables of the core. -/

/-- The inputs of one run: the participant status log files matched by the
glob (each file a list of raw rows), the presence of the four single-file
journals read with pl.read_csv (which raises when the file is missing),
the presence of each attribute file by logical name, and the contents of
the jobs attribute table (jobId, employerId) used to build the employer
lookup. -/
structure SimFS where
  statusLogFiles : List (List RawStatusRow)
  financialJournalPresent : Bool
  checkinJournalPresent : Bool
  travelJournalPresent : Bool
  socialNetworkPresent : Bool
  attrPresent : String → Bool
  jobsRows : List (Int × Int)

/-- pl.read_csv on a single required journal file: raises
FileNotFoundError when the file does not exist. -/
def loadJournal (present : Bool) (name : String) : Except String Unit :=
  if present then .ok () else .error (name ++ " not found")

/-- The logical names of the attribute files load_attributes_data loads. -/
def attributeNames : List String :=
  ["participants", "jobs", "employers", "apartments", "buildings",
   "restaurants", "pubs", "schools"]

/-- load_attributes_data: a missing attribute file is not an error; it is
logged as a warning and replaced by an empty (column-less) DataFrame.
The result records, per attribute, whether a real table was loaded. -/
def load_attributes_data (fs : SimFS) : List (String × Bool) :=
  attributeNames.map (fun n => (n, fs.attrPresent n))

/-- The loaded data a run carries into processing: the normalized status
rows, the jobs attribute table (none when the jobs file was missing — its
stand-in empty DataFrame has no columns at all), and the presence of the
other attribute tables whose stand-in empty frames make a downstream
select or join raise. -/
structure LoadedData where
  statusRows : List StatusRow
  jobs : Option (List (Int × Int))
  participantsPresent : Bool
  employersPresent : Bool
  apartmentsPresent : Bool
  restaurantsPresent : Bool
  pubsPresent : Bool
  attributes : List (String × Bool)

/-- load_all_data: the status logs and the four journals load first and
each can fail; the attribute load never fails. -/
def load_all_data (parseTs : String → Option Nat) (parseDec : String → Option ℚ)
    (fs : SimFS) : Except String LoadedData :=
  match load_participant_status_logs parseTs parseDec fs.statusLogFiles with
  | .error e => .error e
  | .ok rows =>
    match loadJournal fs.financialJournalPresent "FinancialJournal.csv" with
    | .error e => .error e
    | .ok _ =>
      match loadJournal fs.checkinJournalPresent "CheckinJournal.csv" with
      | .error e => .error e
      | .ok _ =>
        match loadJournal fs.travelJournalPresent "TravelJournal.csv" with
        | .error e => .error e
        | .ok _ =>
          match loadJournal fs.socialNetworkPresent "SocialNetwork.csv" with
          | .error e => .error e
          | .ok _ =>
            .ok { statusRows := rows
                  jobs := if fs.attrPresent "jobs" then some fs.jobsRows else none
                  participantsPresent := fs.attrPresent "participants"
                  employersPresent := fs.attrPresent "employers"
                  apartmentsPresent := fs.attrPresent "apartments"
                  restaurantsPresent := fs.attrPresent "restaurants"
                  pubsPresent := fs.attrPresent "pubs"
                  attributes := load_attributes_data fs }

/-- The job-to-employer dictionary built once from the jobs attribute
table (first binding wins, as a dict comprehension over rows keeps the
last and the source table has unique jobIds; the model looks up the first
matching pair). -/
def jobsLookup (js : List (Int × Int)) (j : Int) : Option Int :=
  (js.find? (fun p => p.1 = j)).map (fun p => p.2)

/-- The employment tables of one successful run. -/
structure EmploymentTables where
  turnover_rates : TurnoverDF
  employment_stability : StabDF
deriving DecidableEq, Repr

/-- BusinessProcessor.process as main runs it first: its opening step
selects restaurantId columns from the restaurants table and pubId columns
from the pubs table (business_processor.py, _calculate_business_trends),
so a missing restaurants or pubs attribute file — whose stand-in is an
empty column-less DataFrame — raises a column-not-found error; the
remaining steps read only the always-loaded journals.  The produced
business tables are outside the specified core and are not carried. -/
def businessProcess (d : LoadedData) : Except String Unit :=
  if d.restaurantsPresent && d.pubsPresent then .ok ()
  else .error "column not found"

/-- FinancialProcessor.process as main runs it second: it joins the
participants table on participantId, the jobs table on jobId and the
apartments table on apartmentId (financial_processor.py trajectory, wage
and cost-of-living steps), so a missing participants, jobs or apartments
attribute file raises a column-not-found error on the empty stand-in
frame.  The produced financial tables are outside the specified core and
are not carried. -/
def financialProcess (d : LoadedData) : Except String Unit :=
  if d.participantsPresent && d.jobs.isSome && d.apartmentsPresent then .ok ()
  else .error "column not found"

/-- EmploymentProcessor.process restricted to the two batched analyses of
the core: the earlier joins of the processor read the jobs and employers
attribute tables and raise when either stand-in empty DataFrame lacks the
joined columns, which the surrounding try of main converts into an
aborted run. -/
def employmentProcess (monthOf : Nat → Nat) (bs : Nat) (d : LoadedData) :
    Except String EmploymentTables :=
  match d.jobs with
  | none => .error "jobId column not found"
  | some js =>
    if d.employersPresent then
      .ok { turnover_rates := calculate_turnover_rates monthOf (jobsLookup js) bs d.statusRows
            employment_stability := analyze_employment_stability monthOf bs d.statusRows }
    else
      .error "employerId column not found"

/-- The outcome of one run: the process exit status and the employment
tables of the core when the run reached and completed them. -/
structure RunResult where
  exitCode : Nat
  employment : Option EmploymentTables
deriving DecidableEq, Repr

/-- The try/except of main: any raised error aborts the run with
sys.exit(1); loading happens in full first, then the business, financial
and employment processors run in that order, so a load failure yields no
results at all and a processor failure leaves the employment tables of
the core unproduced. -/
def mainRun (monthOf : Nat → Nat) (parseTs : String → Option Nat)
    (parseDec : String → Option ℚ) (bs : Nat) (fs : SimFS) : RunResult :=
  match load_all_data parseTs parseDec fs with
  | .error _ => { exitCode := 1, employment := none }
  | .ok d =>
    match businessProcess d with
    | .error _ => { exitCode := 1, employment := none }
    | .ok _ =>
      match financialProcess d with
      | .error _ => { exitCode := 1, employment := none }
      | .ok _ =>
        match employmentProcess monthOf bs d with
        | .error _ => { exitCode := 1, employment := none }
        | .ok em => { exitCode := 0, employment := some em }

/-! ## Observation vocabulary used by the theorem statements. -/

/-- The rows of a table (or of one chunk) belonging to the stability group
with key k. -/
def stabGroupRows (monthOf : Nat → Nat) (k : Option Int × Option Nat)
    (c : List StatusRow) : List StatusRow :=
  c.filter (fun r => monthKey monthOf r = k)

/-- The chunks of a chunked run that contain at least one row of the
stability group k, in chunk order: exactly the chunks contributing a
partial row for k to the pool. -/
def contribChunks (monthOf : Nat → Nat) (bs : Nat) (rows : List StatusRow)
    (k : Option Int × Option Nat) : List (List StatusRow) :=
  (chunksOf bs rows).filter (fun c => !(stabGroupRows monthOf k c).isEmpty)

/-- The partial stability row chunk c contributes for group k. -/
def chunkStabPartial (monthOf : Nat → Nat) (k : Option Int × Option Nat)
    (c : List StatusRow) : StabPartialRow :=
  stabAgg k (stabGroupRows monthOf k c)

/-- The chunk-local employment rate of group k inside chunk c: employed
observations over all observations of the group within the chunk. -/
def chunkEmploymentRate (monthOf : Nat → Nat) (k : Option Int × Option Nat)
    (c : List StatusRow) : ℚ :=
  (((stabGroupRows monthOf k c).countP (fun r => r.jobId.isSome) : Nat) : ℚ) /
    (((stabGroupRows monthOf k c).length : Nat) : ℚ)

/-- Modelled from the spec: the phase-2 recombination the Combiner contract
prescribes for means, recomputed from the total sum and total count of the
underlying rows of the group (a weighted combination of the per-chunk
means), stated directly over the unchunked row set of the group. -/
def specWeightedEmploymentRate (monthOf : Nat → Nat) (rows : List StatusRow)
    (k : Option Int × Option Nat) : ℚ :=
  (((stabGroupRows monthOf k rows).countP (fun r => r.jobId.isSome) : Nat) : ℚ) /
    (((stabGroupRows monthOf k rows).length : Nat) : ℚ)

/-- Modelled from the spec: the distinct job-identifier count of a
stability group over the whole dataset, chunk boundaries ignored. -/
def specDistinctJobCount (monthOf : Nat → Nat) (rows : List StatusRow)
    (k : Option Int × Option Nat) : Nat :=
  nUnique ((stabGroupRows monthOf k rows).map (fun r => r.jobId))

/-- No stability group spans two distinct chunks: rows in different chunks
always carry different (participantId, month) keys. -/
abbrev stabChunksDisjoint (monthOf : Nat → Nat) (c d : List StatusRow) : Prop :=
  ∀ x ∈ c, ∀ y ∈ d, monthKey monthOf x ≠ monthKey monthOf y

/-- No turnover group spans two distinct chunks: employed rows in
different chunks always carry different (participantId, jobId) pairs. -/
abbrev turnChunksDisjoint (c d : List StatusRow) : Prop :=
  ∀ x ∈ c, ∀ y ∈ d,
    x.jobId = none ∨ (x.participantId, x.jobId) ≠ (y.participantId, y.jobId)

/-! ## Lemmas about the list-level building blocks. -/

theorem mem_firstDedup {α : Type} [DecidableEq α] {a : α} {l : List α} :
    a ∈ firstDedup l ↔ a ∈ l := by
  induction l with
  | nil => simp [firstDedup]
  | cons b bs ih =>
    by_cases hab : a = b
    · subst hab; simp [firstDedup]
    · simp [firstDedup, List.mem_filter, hab, ih]

theorem nodup_firstDedup {α : Type} [DecidableEq α] (l : List α) :
    (firstDedup l).Nodup := by
  induction l with
  | nil => simp [firstDedup]
  | cons b bs ih =>
    refine List.Nodup.cons ?_ (List.Nodup.filter _ ih)
    intro hmem
    rcases List.mem_filter.mp hmem with ⟨-, hb⟩
    simp at hb

theorem firstDedup_append {α : Type} [DecidableEq α] {l₁ l₂ : List α}
    (h : ∀ x ∈ l₁, x ∉ l₂) :
    firstDedup (l₁ ++ l₂) = firstDedup l₁ ++ firstDedup l₂ := by
  induction l₁ with
  | nil => simp [firstDedup]
  | cons a as ih =>
    have has : ∀ x ∈ as, x ∉ l₂ := fun x hx => h x (List.mem_cons_of_mem a hx)
    have hfd : (firstDedup l₂).filter (fun b => b ≠ a) = firstDedup l₂ := by
      refine List.filter_eq_self.mpr ?_
      intro b hb
      have hbl₂ : b ∈ l₂ := mem_firstDedup.mp hb
      have hal₂ : a ∉ l₂ := h a (List.mem_cons_self a as)
      simp only [ne_eq, decide_eq_true_eq]
      intro hba
      exact hal₂ (hba ▸ hbl₂)
    rw [List.cons_append]
    show a :: (firstDedup (as ++ l₂)).filter (fun b => b ≠ a) =
      (a :: (firstDedup as).filter (fun b => b ≠ a)) ++ firstDedup l₂
    rw [ih has, List.filter_append, hfd, List.cons_append]

theorem firstDedup_flatten {α : Type} [DecidableEq α] {cs : List (List α)}
    (h : cs.Pairwise (fun c d => ∀ x ∈ c, ∀ y ∈ d, x ≠ y)) :
    (cs.map firstDedup).flatten = firstDedup cs.flatten := by
  induction cs with
  | nil => simp [firstDedup]
  | cons c cs ih =>
    rcases List.pairwise_cons.mp h with ⟨hc, hcs⟩
    have hdisj : ∀ x ∈ c, x ∉ cs.flatten := by
      intro x hx hmem
      rcases List.mem_flatten.mp hmem with ⟨d, hd, hxd⟩
      exact hc d hd x hx x hxd rfl
    simp only [List.map_cons, List.flatten_cons, ih hcs, firstDedup_append hdisj]

theorem flatten_map_filterMap {α β : Type} (f : α → Option β) (cs : List (List α)) :
    (cs.map (List.filterMap f)).flatten = cs.flatten.filterMap f := by
  induction cs with
  | nil => simp
  | cons c cs ih =>
    simp only [List.map_cons, List.flatten_cons, List.filterMap_append, ih]

theorem flatten_map_filter {α : Type} (p : α → Bool) (cs : List (List α)) :
    (cs.map (List.filter p)).flatten = cs.flatten.filter p := by
  induction cs with
  | nil => simp
  | cons c cs ih =>
    simp only [List.map_cons, List.flatten_cons, List.filter_append, ih]

theorem groupByAgg_append {α κ β : Type} [DecidableEq κ] {key : α → κ}
    {agg : κ → List α → β} {c d : List α}
    (h : ∀ x ∈ c, ∀ y ∈ d, key x ≠ key y) :
    groupByAgg key agg (c ++ d) = groupByAgg key agg c ++ groupByAgg key agg d := by
  unfold groupByAgg
  have hkeys : ∀ x ∈ c.map key, x ∉ d.map key := by
    intro x hx hxd
    rcases List.mem_map.mp hx with ⟨r, hr, hrx⟩
    rcases List.mem_map.mp hxd with ⟨s, hs, hsx⟩
    exact h r hr s hs (hrx.trans hsx.symm)
  rw [List.map_append, firstDedup_append hkeys, List.map_append]
  congr 1
  · refine List.map_congr_left ?_
    intro k hk
    have hkc : ∃ r ∈ c, key r = k := by
      rcases List.mem_map.mp (mem_firstDedup.mp hk) with ⟨r, hr, hrk⟩
      exact ⟨r, hr, hrk⟩
    have hd : d.filter (fun r => key r = k) = [] := by
      refine List.filter_eq_nil_iff.mpr ?_
      intro y hy
      rcases hkc with ⟨r, hr, hrk⟩
      simp only [decide_eq_true_eq]
      exact fun hyk => h r hr y hy (hrk.trans hyk.symm)
    rw [List.filter_append, hd, List.append_nil]
  · refine List.map_congr_left ?_
    intro k hk
    have hkd : ∃ s ∈ d, key s = k := by
      rcases List.mem_map.mp (mem_firstDedup.mp hk) with ⟨s, hs, hsk⟩
      exact ⟨s, hs, hsk⟩
    have hcnil : c.filter (fun r => key r = k) = [] := by
      refine List.filter_eq_nil_iff.mpr ?_
      intro x hx
      rcases hkd with ⟨s, hs, hsk⟩
      simp only [decide_eq_true_eq]
      exact fun hxk => h x hx s hs (hxk.trans hsk.symm)
    rw [List.filter_append, hcnil, List.nil_append]

theorem flatten_map_groupByAgg {α κ β : Type} [DecidableEq κ] {key : α → κ}
    {agg : κ → List α → β} {cs : List (List α)}
    (h : cs.Pairwise (fun c d => ∀ x ∈ c, ∀ y ∈ d, key x ≠ key y)) :
    (cs.map (groupByAgg key agg)).flatten = groupByAgg key agg cs.flatten := by
  induction cs with
  | nil => simp [groupByAgg, firstDedup]
  | cons c cs ih =>
    rcases List.pairwise_cons.mp h with ⟨hc, hcs⟩
    have hdisj : ∀ x ∈ c, ∀ y ∈ cs.flatten, key x ≠ key y := by
      intro x hx y hy
      rcases List.mem_flatten.mp hy with ⟨d, hd, hyd⟩
      exact hc d hd x hx y hyd
    simp only [List.map_cons, List.flatten_cons, ih hcs]
    exact (groupByAgg_append hdisj).symm

theorem mem_keys_iff {α κ : Type} [DecidableEq κ] {key : α → κ} {rows : List α} {k : κ} :
    k ∈ firstDedup (rows.map key) ↔ ∃ r ∈ rows, key r = k := by
  rw [mem_firstDedup, List.mem_map]

theorem filter_key_ne_nil {α κ : Type} [DecidableEq κ] {key : α → κ} {rows : List α}
    {k : κ} (h : ∃ r ∈ rows, key r = k) :
    rows.filter (fun r => key r = k) ≠ [] := by
  rcases h with ⟨r, hr, hrk⟩
  intro hnil
  have : r ∈ rows.filter (fun r => key r = k) :=
    List.mem_filter.mpr ⟨hr, by simp [hrk]⟩
  rw [hnil] at this
  exact List.not_mem_nil r this

theorem nodup_filter_eq {α : Type} [DecidableEq α] {l : List α} (hl : l.Nodup) (k : α) :
    l.filter (fun x => x = k) = if k ∈ l then [k] else [] := by
  induction l with
  | nil => simp
  | cons a as ih =>
    rcases List.nodup_cons.mp hl with ⟨ha, has⟩
    by_cases hak : a = k
    · subst hak
      have h1 : as.filter (fun x => x = a) = [] := by
        refine List.filter_eq_nil_iff.mpr ?_
        intro y hy
        simp only [decide_eq_true_eq]
        intro hya
        exact ha (hya ▸ hy)
      simp [List.filter_cons, h1]
    · have hka : ¬ k = a := fun h => hak h.symm
      simp [List.filter_cons, hak, ih has, List.mem_cons, hka]

/-! ## Lemmas about the chunk plan. -/

theorem numChunks_zero (size : Nat) : numChunks 0 size = 0 := by
  cases size with
  | zero => rfl
  | succ s =>
    unfold numChunks
    have h1 : 0 + (s + 1) - 1 = s := by omega
    rw [h1]
    exact Nat.div_eq_of_lt (Nat.lt_succ_self s)

theorem le_numChunks_mul {size : Nat} (hs : 0 < size) (n : Nat) :
    n ≤ numChunks n size * size := by
  cases n with
  | zero => exact Nat.zero_le _
  | succ m =>
    have h1 : numChunks (m + 1) size = m / size + 1 := by
      unfold numChunks
      have h : m + 1 + size - 1 = m + size := by omega
      rw [h, Nat.add_div_right m hs]
    rw [h1, Nat.succ_mul]
    have h2 : size * (m / size) + m % size = m := Nat.div_add_mod m size
    have h3 : m % size < size := Nat.mod_lt m hs
    rw [Nat.mul_comm (m / size) size]
    generalize size * (m / size) = t at h2 ⊢
    omega

theorem numChunks_eq_one {size n : Nat} (_hs : 0 < size) (h0 : 0 < n) (hle : n ≤ size) :
    numChunks n size = 1 := by
  unfold numChunks
  refine Nat.div_eq_of_lt_le (by omega) (by omega)

theorem sliceOf_plan {α : Type} (rows : List α) (st size : Nat) :
    sliceOf rows (st, min (st + size) rows.length) = (rows.drop st).take size := by
  show (rows.drop st).take (min (st + size) rows.length - st) = (rows.drop st).take size
  rcases le_total (st + size) rows.length with h | h
  · rw [min_eq_left h]
    congr 1
    omega
  · rw [min_eq_right h]
    have hlen : (rows.drop st).length = rows.length - st := List.length_drop st rows
    rw [List.take_of_length_le (by omega), List.take_of_length_le (by omega)]

theorem chunks_aux {α : Type} {size : Nat} (_hs : 0 < size) :
    ∀ (k : Nat) (rows : List α), rows.length ≤ k * size →
      ((List.range' 0 k size).map (fun st => (rows.drop st).take size)).flatten = rows := by
  intro k
  induction k with
  | zero =>
    intro rows h
    have hnil : rows = [] := List.eq_nil_of_length_eq_zero (by omega)
    subst hnil
    simp
  | succ k ih =>
    intro rows h
    rw [List.range'_succ]
    simp only [List.map_cons, List.flatten_cons, List.drop_zero]
    have hshift : List.range' size k size = (List.range' 0 k size).map (size + ·) := by
      have h2 := (List.map_add_range' size 0 k size).symm
      rwa [Nat.add_zero] at h2
    rw [Nat.zero_add, hshift, List.map_map]
    have hcomp : ∀ st ∈ List.range' 0 k size,
        ((fun st => (rows.drop st).take size) ∘ (size + ·)) st =
          (((rows.drop size).drop st).take size) := by
      intro st _
      simp only [Function.comp_apply]
      rw [List.drop_drop]
    rw [List.map_congr_left hcomp]
    have hlen : (rows.drop size).length ≤ k * size := by
      rw [List.length_drop]
      rw [Nat.succ_mul] at h
      exact Nat.sub_le_iff_le_add.mpr h
    rw [ih (rows.drop size) hlen]
    exact List.take_append_drop size rows

theorem chunksOf_flatten {α : Type} {size : Nat} (hs : 0 < size) (rows : List α) :
    (chunksOf size rows).flatten = rows := by
  unfold chunksOf plan
  rw [List.map_map]
  have hpt : ∀ st ∈ List.range' 0 (numChunks rows.length size) size,
      (sliceOf rows ∘ fun st => (st, min (st + size) rows.length)) st =
        (rows.drop st).take size := by
    intro st _
    exact sliceOf_plan rows st size
  rw [List.map_congr_left hpt]
  exact chunks_aux hs _ rows (le_numChunks_mul hs rows.length)

theorem chunksOf_nil {α : Type} (size : Nat) : chunksOf size ([] : List α) = [] := by
  unfold chunksOf plan
  simp [numChunks_zero]

theorem chunksOf_of_length_le {α : Type} {size : Nat} (hs : 0 < size) {rows : List α}
    (hle : rows.length ≤ size) (hne : rows ≠ []) : chunksOf size rows = [rows] := by
  unfold chunksOf plan
  have h0 : 0 < rows.length := List.length_pos.mpr hne
  rw [numChunks_eq_one hs h0 hle]
  have h1 : List.range' 0 1 size = [0] := by
    rw [List.range'_succ]
    simp
  rw [h1]
  simp only [List.map_cons, List.map_nil, zero_add]
  rw [min_eq_right hle]
  unfold sliceOf
  simp [List.take_of_length_le (le_refl rows.length)]

theorem exists_chunk_of_mem {α : Type} {size : Nat} (hs : 0 < size) {rows : List α}
    {r : α} (hr : r ∈ rows) : ∃ c ∈ chunksOf size rows, r ∈ c := by
  have h := chunksOf_flatten hs rows
  rw [← h] at hr
  exact List.mem_flatten.mp hr

/-! ## Lemmas about means and the stability aggregations. -/

theorem filterMap_id_map_some (l : List ℚ) : (l.map some).filterMap id = l := by
  rw [List.filterMap_map]
  exact List.filterMap_some l

theorem meanOpt_map_some {l : List ℚ} (h : l ≠ []) :
    meanOpt (l.map some) = some (l.sum / (l.length : ℚ)) := by
  unfold meanOpt
  rw [filterMap_id_map_some]
  have hlen : l.length ≠ 0 := fun h0 => h (List.eq_nil_of_length_eq_zero h0)
  simp [hlen]

theorem meanOpt_all_none {l : List (Option ℚ)} (h : ∀ x ∈ l, x = none) :
    meanOpt l = none := by
  unfold meanOpt
  have hfm : l.filterMap id = [] := by
    refine List.filterMap_eq_nil_iff.mpr ?_
    intro x hx
    rw [h x hx]
    rfl
  simp [hfm]

theorem meanOpt_isSome {l : List (Option ℚ)} (h : ∃ x ∈ l, x.isSome) :
    (meanOpt l).isSome := by
  unfold meanOpt
  rcases h with ⟨x, hx, hsome⟩
  rcases Option.isSome_iff_exists.mp hsome with ⟨q, hq⟩
  have hmem : q ∈ l.filterMap id := List.mem_filterMap.mpr ⟨x, hx, by rw [hq]; rfl⟩
  have hne : (l.filterMap id).length ≠ 0 := by
    intro h0
    rw [List.eq_nil_of_length_eq_zero h0] at hmem
    exact List.not_mem_nil q hmem
  simp [hne]

theorem meanOpt_singleton (x : Option ℚ) : meanOpt [x] = x := by
  cases x with
  | none => rfl
  | some q =>
    unfold meanOpt
    simp

theorem sum_indicator (p : StatusRow → Bool) (g : List StatusRow) :
    (g.map (fun r => if p r then (1 : ℚ) else 0)).sum = (g.countP p : ℚ) := by
  induction g with
  | nil => simp
  | cons r rs ih =>
    rw [List.map_cons, List.sum_cons, ih, List.countP_cons]
    by_cases hp : p r = true
    · simp [hp]
      ring
    · simp [hp]

theorem stabAgg_employment_rate {k : Option Int × Option Nat} {g : List StatusRow}
    (hg : g ≠ []) :
    (stabAgg k g).employment_rate =
      some ((g.countP (fun r => r.jobId.isSome) : ℚ) / (g.length : ℚ)) := by
  show meanOpt (g.map (fun r => some (isEmployedInd r))) = _
  have hmm : g.map (fun r => some (isEmployedInd r)) = (g.map isEmployedInd).map some := by
    rw [List.map_map]
    rfl
  rw [hmm, meanOpt_map_some (by simpa using hg)]
  unfold isEmployedInd
  rw [sum_indicator (fun r => r.jobId.isSome) g, List.length_map]

theorem batchStability_eq (monthOf : Nat → Nat) (c : List StatusRow) :
    batchStability monthOf c = groupByAgg (monthKey monthOf) stabAgg c := by
  unfold batchStability
  refine List.filter_eq_self.mpr ?_
  intro b hb
  rcases List.mem_map.mp hb with ⟨k, hk, hbk⟩
  have hne : c.filter (fun r => monthKey monthOf r = k) ≠ [] :=
    filter_key_ne_nil (mem_keys_iff.mp hk)
  have := stabAgg_employment_rate (k := k) hne
  rw [← hbk] at *
  simp [this]

theorem stabAgg_key (k : Option Int × Option Nat) (g : List StatusRow) :
    stabKey2 (stabAgg k g) = k := by
  show (k.1, k.2) = k
  exact Prod.mk.eta

theorem stabGroupRows_ne_nil_iff {monthOf : Nat → Nat} {k : Option Int × Option Nat}
    {c : List StatusRow} :
    stabGroupRows monthOf k c ≠ [] ↔ ∃ r ∈ c, monthKey monthOf r = k := by
  constructor
  · intro h
    rcases List.exists_mem_of_ne_nil _ h with ⟨r, hr⟩
    rcases List.mem_filter.mp hr with ⟨hrc, hrk⟩
    exact ⟨r, hrc, by simpa using hrk⟩
  · exact filter_key_ne_nil

theorem groupByAgg_stab_filter_key (monthOf : Nat → Nat) (rows : List StatusRow)
    (k : Option Int × Option Nat) :
    (groupByAgg (monthKey monthOf) stabAgg rows).filter (fun b => stabKey2 b = k) =
      if ∃ r ∈ rows, monthKey monthOf r = k
        then [stabAgg k (stabGroupRows monthOf k rows)] else [] := by
  unfold groupByAgg
  rw [List.filter_map]
  have hcong : (firstDedup (rows.map (monthKey monthOf))).filter
        ((fun b => decide (stabKey2 b = k)) ∘
          fun k' => stabAgg k' (rows.filter (fun r => monthKey monthOf r = k'))) =
      (firstDedup (rows.map (monthKey monthOf))).filter (fun k' => k' = k) := by
    refine List.filter_congr ?_
    intro k' _
    simp only [Function.comp_apply, stabAgg_key]
  rw [hcong, nodup_filter_eq (nodup_firstDedup _) k]
  by_cases hk : ∃ r ∈ rows, monthKey monthOf r = k
  · rw [if_pos (mem_keys_iff.mpr hk), if_pos hk]
    simp [stabGroupRows]
  · rw [if_neg (fun hmem => hk (mem_keys_iff.mp hmem)), if_neg hk]
    simp

theorem flatten_map_ite_singleton {α β : Type} (P : α → Prop) [DecidablePred P]
    (f : α → β) (cs : List α) :
    (cs.map (fun c => if P c then [f c] else [])).flatten =
      (cs.filter (fun c => decide (P c))).map f := by
  induction cs with
  | nil => simp
  | cons c cs ih =>
    by_cases hc : P c
    · simp [hc, ih]
    · simp [hc, ih]

theorem stabilityPool_filter_key (monthOf : Nat → Nat) (bs : Nat)
    (rows : List StatusRow) (k : Option Int × Option Nat) :
    (stabilityPool monthOf bs rows).filter (fun b => stabKey2 b = k) =
      (contribChunks monthOf bs rows k).map (chunkStabPartial monthOf k) := by
  unfold stabilityPool
  rw [← flatten_map_filter, List.map_map]
  have hpt : ∀ c ∈ chunksOf bs rows,
      ((List.filter (fun b => stabKey2 b = k)) ∘ (batchStability monthOf)) c =
        if ∃ r ∈ c, monthKey monthOf r = k
          then [stabAgg k (stabGroupRows monthOf k c)] else [] := by
    intro c _
    simp only [Function.comp_apply]
    rw [batchStability_eq, groupByAgg_stab_filter_key]
  rw [List.map_congr_left hpt,
    flatten_map_ite_singleton (fun c => ∃ r ∈ c, monthKey monthOf r = k)
      (fun c => stabAgg k (stabGroupRows monthOf k c)) (chunksOf bs rows)]
  unfold contribChunks chunkStabPartial
  congr 1
  refine List.filter_congr ?_
  intro c _
  rcases hcase : (stabGroupRows monthOf k c).isEmpty with hfalse | htrue
  · have : stabGroupRows monthOf k c ≠ [] := by
      intro h
      rw [h] at hcase
      simp at hcase
    simp [hcase, stabGroupRows_ne_nil_iff.mp this]
  · have : stabGroupRows monthOf k c = [] := List.isEmpty_iff.mp hcase
    have hno : ¬ ∃ r ∈ c, monthKey monthOf r = k := by
      intro hex
      exact (stabGroupRows_ne_nil_iff.mpr hex) this
    simp [hcase, hno]

theorem chunkStabPartial_rate {monthOf : Nat → Nat} {k : Option Int × Option Nat}
    {c : List StatusRow} (h : stabGroupRows monthOf k c ≠ []) :
    (chunkStabPartial monthOf k c).employment_rate =
      some (chunkEmploymentRate monthOf k c) := by
  unfold chunkStabPartial chunkEmploymentRate
  exact stabAgg_employment_rate h

theorem mem_contribChunks_iff {monthOf : Nat → Nat} {bs : Nat} {rows : List StatusRow}
    {k : Option Int × Option Nat} {c : List StatusRow} :
    c ∈ contribChunks monthOf bs rows k ↔
      c ∈ chunksOf bs rows ∧ stabGroupRows monthOf k c ≠ [] := by
  unfold contribChunks
  rw [List.mem_filter]
  constructor
  · rintro ⟨hc, hb⟩
    refine ⟨hc, ?_⟩
    intro hnil
    rw [hnil] at hb
    simp at hb
  · rintro ⟨hc, hne⟩
    refine ⟨hc, ?_⟩
    cases hX : (stabGroupRows monthOf k c).isEmpty
    · rfl
    · exact absurd (List.isEmpty_iff.mp hX) hne

theorem stability_row_at_key (monthOf : Nat → Nat) {bs : Nat} (hbs : 0 < bs)
    (rows : List StatusRow) (k : Option Int × Option Nat)
    (hmem : ∃ r ∈ rows, monthKey monthOf r = k) :
    contribChunks monthOf bs rows k ≠ [] ∧
    ∃ e ∈ (analyze_employment_stability monthOf bs rows).rows,
      e.participantId = k.1 ∧ e.month = k.2 ∧
      e.employment_rate = meanOpt ((contribChunks monthOf bs rows k).map
        (fun c => (chunkStabPartial monthOf k c).employment_rate)) ∧
      e.job_changes = ((contribChunks monthOf bs rows k).map
        (fun c => (chunkStabPartial monthOf k c).job_changes)).sum ∧
      e.avg_balance = meanOpt ((contribChunks monthOf bs rows k).map
        (fun c => (chunkStabPartial monthOf k c).avg_balance)) ∧
      e.stability_score = e.employment_rate := by
  have hcontrib : contribChunks monthOf bs rows k ≠ [] := by
    rcases hmem with ⟨r, hr, hrk⟩
    rcases exists_chunk_of_mem hbs hr with ⟨c, hc, hrc⟩
    have hcmem : c ∈ contribChunks monthOf bs rows k :=
      mem_contribChunks_iff.mpr ⟨hc, stabGroupRows_ne_nil_iff.mpr ⟨r, hrc, hrk⟩⟩
    intro hnil
    rw [hnil] at hcmem
    exact List.not_mem_nil _ hcmem
  refine ⟨hcontrib, ?_⟩
  have hfilter := stabilityPool_filter_key monthOf bs rows k
  have hexists : ∃ b ∈ stabilityPool monthOf bs rows, stabKey2 b = k := by
    rcases List.exists_mem_of_ne_nil _ hcontrib with ⟨c, hc⟩
    have hmm : chunkStabPartial monthOf k c ∈
        (contribChunks monthOf bs rows k).map (chunkStabPartial monthOf k) :=
      List.mem_map_of_mem _ hc
    rw [← hfilter] at hmm
    rcases List.mem_filter.mp hmm with ⟨hbp, hbk⟩
    exact ⟨_, hbp, by simpa using hbk⟩
  have hpoolne : stabilityPool monthOf bs rows ≠ [] := by
    rcases hexists with ⟨b, hb, -⟩
    intro h
    rw [h] at hb
    exact List.not_mem_nil b hb
  have hkmem : k ∈ firstDedup ((stabilityPool monthOf bs rows).map stabKey2) :=
    mem_keys_iff.mpr hexists
  have hb0G : stabAgg2 k ((stabilityPool monthOf bs rows).filter
        (fun b => stabKey2 b = k)) ∈ groupByAgg stabKey2 stabAgg2 (stabilityPool monthOf bs rows) :=
    List.mem_map_of_mem _ hkmem
  have hb0rate : (stabAgg2 k ((stabilityPool monthOf bs rows).filter
        (fun b => stabKey2 b = k))).employment_rate =
      meanOpt ((contribChunks monthOf bs rows k).map
        (fun c => (chunkStabPartial monthOf k c).employment_rate)) := by
    show meanOpt (((stabilityPool monthOf bs rows).filter
        (fun b => stabKey2 b = k)).map (fun b => b.employment_rate)) = _
    rw [hfilter, List.map_map]
    rfl
  have hb0some : (stabAgg2 k ((stabilityPool monthOf bs rows).filter
        (fun b => stabKey2 b = k))).employment_rate.isSome := by
    rw [hb0rate]
    refine meanOpt_isSome ?_
    rcases List.exists_mem_of_ne_nil _ hcontrib with ⟨c, hc⟩
    refine ⟨(chunkStabPartial monthOf k c).employment_rate, List.mem_map_of_mem _ hc, ?_⟩
    have hgne : stabGroupRows monthOf k c ≠ [] := (mem_contribChunks_iff.mp hc).2
    rw [chunkStabPartial_rate hgne]
    rfl
  have hfalse : (stabilityPool monthOf bs rows).isEmpty = false := by
    cases hX : (stabilityPool monthOf bs rows).isEmpty
    · rfl
    · exact absurd (List.isEmpty_iff.mp hX) hpoolne
  have hrows : (analyze_employment_stability monthOf bs rows).rows =
      ((groupByAgg stabKey2 stabAgg2 (stabilityPool monthOf bs rows)).filter
        (fun b => b.employment_rate.isSome)).map addStabilityScore := by
    simp only [analyze_employment_stability, hfalse, Bool.false_eq_true, if_false]
  refine ⟨addStabilityScore (stabAgg2 k ((stabilityPool monthOf bs rows).filter
      (fun b => stabKey2 b = k))), ?_, rfl, rfl, ?_, ?_, ?_, rfl⟩
  · rw [hrows]
    exact List.mem_map_of_mem _ (List.mem_filter.mpr ⟨hb0G, hb0some⟩)
  · exact hb0rate
  · show (((stabilityPool monthOf bs rows).filter
        (fun b => stabKey2 b = k)).map (fun b => b.job_changes)).sum = _
    rw [hfilter, List.map_map]
    rfl
  · show meanOpt (((stabilityPool monthOf bs rows).filter
        (fun b => stabKey2 b = k)).map (fun b => b.avg_balance)) = _
    rw [hfilter, List.map_map]
    rfl

/-! ## Chunk-boundary independence of the pools when no group spans two
chunks. -/

theorem stabilityPool_eq_of_disjoint (monthOf : Nat → Nat) {bs : Nat} (hbs : 0 < bs)
    (rows : List StatusRow)
    (hdisj : (chunksOf bs rows).Pairwise (stabChunksDisjoint monthOf)) :
    stabilityPool monthOf bs rows = groupByAgg (monthKey monthOf) stabAgg rows := by
  unfold stabilityPool
  have h1 : (chunksOf bs rows).map (batchStability monthOf) =
      (chunksOf bs rows).map (groupByAgg (monthKey monthOf) stabAgg) :=
    List.map_congr_left (fun c _ => batchStability_eq monthOf c)
  rw [h1, flatten_map_groupByAgg hdisj, chunksOf_flatten hbs]

theorem mem_employedTriples {c : List StatusRow} {t : Option Int × Option Nat × Int}
    (h : t ∈ employedTriples c) :
    ∃ r ∈ c, r.participantId = t.1 ∧ r.timestamp = t.2.1 ∧ r.jobId = some t.2.2 := by
  unfold employedTriples at h
  rcases List.mem_filterMap.mp (mem_firstDedup.mp h) with ⟨r, hr, hmap⟩
  cases hj : r.jobId with
  | none =>
    rw [hj] at hmap
    simp at hmap
  | some j =>
    rw [hj] at hmap
    simp only [Option.map_some', Option.some.injEq] at hmap
    refine ⟨r, hr, ?_, ?_, ?_⟩
    · rw [← hmap]
    · rw [← hmap]
    · rw [hj, ← hmap]

theorem employedTriples_append {c d : List StatusRow} (h : turnChunksDisjoint c d) :
    employedTriples (c ++ d) = employedTriples c ++ employedTriples d := by
  unfold employedTriples
  rw [List.filterMap_append]
  refine firstDedup_append ?_
  intro t htc htd
  have h1 := mem_employedTriples (show t ∈ employedTriples c from mem_firstDedup.mpr htc)
  have h2 := mem_employedTriples (show t ∈ employedTriples d from mem_firstDedup.mpr htd)
  rcases h1 with ⟨r, hr, hr1, hr2, hr3⟩
  rcases h2 with ⟨s, hs, hs1, hs2, hs3⟩
  rcases h r hr s hs with hnone | hne
  · rw [hnone] at hr3
    exact Option.noConfusion hr3
  · exact hne (by rw [hr1, hr3, hs1, hs3])

theorem employmentPeriods_append (lookup : Int → Option Int) {c d : List StatusRow}
    (h : turnChunksDisjoint c d) :
    employmentPeriods lookup (c ++ d) =
      employmentPeriods lookup c ++ employmentPeriods lookup d := by
  unfold employmentPeriods
  rw [employedTriples_append h, List.filterMap_append]

theorem mem_employmentPeriods {lookup : Int → Option Int} {c : List StatusRow}
    {u : EmploymentPeriod} (h : u ∈ employmentPeriods lookup c) :
    ∃ r ∈ c, r.participantId = u.participantId ∧ r.jobId = some u.jobId := by
  unfold employmentPeriods at h
  rcases List.mem_filterMap.mp h with ⟨t, ht, hmap⟩
  cases hl : lookup t.2.2 with
  | none =>
    rw [hl] at hmap
    exact Option.noConfusion hmap
  | some e =>
    rw [hl] at hmap
    simp only [Option.map_some', Option.some.injEq] at hmap
    rcases mem_employedTriples ht with ⟨r, hr, hr1, hr2, hr3⟩
    refine ⟨r, hr, ?_, ?_⟩
    · rw [hr1, ← hmap]
    · rw [hr3, ← hmap]

theorem batchTenure_append (monthOf : Nat → Nat) (lookup : Int → Option Int)
    {c d : List StatusRow} (h : turnChunksDisjoint c d) :
    batchTenure monthOf lookup (c ++ d) =
      batchTenure monthOf lookup c ++ batchTenure monthOf lookup d := by
  unfold batchTenure
  rw [employmentPeriods_append lookup h]
  have hkeys : ∀ x ∈ employmentPeriods lookup c, ∀ y ∈ employmentPeriods lookup d,
      tenureKey x ≠ tenureKey y := by
    intro x hx y hy hxy
    rcases mem_employmentPeriods hx with ⟨r, hr, hr1, hr2⟩
    rcases mem_employmentPeriods hy with ⟨s, hs, hs1, hs2⟩
    have hk1 : x.participantId = y.participantId := congrArg Prod.fst hxy
    have hk2 : x.jobId = y.jobId := congrArg (Prod.fst ∘ Prod.snd) hxy
    rcases h r hr s hs with hnone | hne
    · rw [hnone] at hr2
      exact Option.noConfusion hr2
    · exact hne (by rw [hr1, hr2, hs1, hs2, hk1, hk2])
  rw [groupByAgg_append hkeys, List.filterMap_append]

theorem flatten_map_batchTenure (monthOf : Nat → Nat) (lookup : Int → Option Int)
    {cs : List (List StatusRow)} (h : cs.Pairwise turnChunksDisjoint) :
    (cs.map (batchTenure monthOf lookup)).flatten =
      batchTenure monthOf lookup cs.flatten := by
  induction cs with
  | nil => rfl
  | cons c cs ih =>
    rcases List.pairwise_cons.mp h with ⟨hc, hcs⟩
    have hcd : turnChunksDisjoint c cs.flatten := by
      intro x hx y hy
      rcases List.mem_flatten.mp hy with ⟨d, hd, hyd⟩
      exact hc d hd x hx y hyd
    simp only [List.map_cons, List.flatten_cons, ih hcs]
    exact (batchTenure_append monthOf lookup hcd).symm

theorem turnoverPool_eq_of_disjoint (monthOf : Nat → Nat) (lookup : Int → Option Int)
    {bs : Nat} (hbs : 0 < bs) (rows : List StatusRow)
    (hdisj : (chunksOf bs rows).Pairwise turnChunksDisjoint) :
    turnoverPool monthOf lookup bs rows = batchTenure monthOf lookup rows := by
  unfold turnoverPool
  rw [flatten_map_batchTenure monthOf lookup hdisj, chunksOf_flatten hbs]

theorem pairwise_chunksOf_of_le {α : Type} {R : List α → List α → Prop} {bs : Nat}
    (hbs : 0 < bs) {rows : List α} (h : rows.length ≤ bs) :
    (chunksOf bs rows).Pairwise R := by
  by_cases hn : rows = []
  · subst hn
    rw [chunksOf_nil]
    exact List.Pairwise.nil
  · rw [chunksOf_of_length_le hbs h hn]
    exact List.pairwise_singleton R rows

theorem start_lt_total {size : Nat} (hs : 0 < size) {i total : Nat}
    (hi : i < numChunks total size) : size * i < total := by
  have htot : 0 < total := by
    by_contra h0
    have h00 : total = 0 := by omega
    rw [h00, numChunks_zero] at hi
    exact Nat.not_lt_zero i hi
  have h1 : (i + 1) * size ≤ ((total + size - 1) / size) * size :=
    Nat.mul_le_mul_right size (Nat.succ_le_of_lt hi)
  have h2 : ((total + size - 1) / size) * size ≤ total + size - 1 :=
    Nat.div_mul_le_self _ _
  have h3 : (i + 1) * size = i * size + size := Nat.succ_mul i size
  have h4 : i * size + size ≤ total + size - 1 := by
    rw [← h3]
    exact le_trans h1 h2
  rw [Nat.mul_comm size i]
  generalize i * size = t at h4 ⊢
  omega

/-! ## The claims. -/

/-- C4: Absence normalization for the apartmentId and jobId fields: each of
the four sentinel raw values (empty string, the literal "null", the literal
"None", and true-null) maps to the same single absent representation; the
result on a sentinel is the same for every numeric parser, so a sentinel
value never reaches the parser; and applying the normalization a second
time to an already-normalized value changes nothing. -/
theorem absence_normalization_c4 :
    (∀ (parse : String → Option Int) (v : Value),
        v ∈ [Value.VNull, Value.VStr "", Value.VStr "null", Value.VStr "None"] →
        normalizeIdWith parse v = Value.VNull) ∧
    (∀ v : Value, normalizeIdValue (normalizeIdValue v) = normalizeIdValue v) := by
  constructor
  · intro parse v hv
    simp only [List.mem_cons, List.not_mem_nil, or_false] at hv
    rcases hv with h | h | h | h
    · rw [h]
      rfl
    · rw [h]
      simp [normalizeIdWith, idSentinels]
    · rw [h]
      simp [normalizeIdWith, idSentinels]
    · rw [h]
      simp [normalizeIdWith, idSentinels]
  · intro v
    cases v with
    | VNull => rfl
    | VInt n => rfl
    | VStr s =>
      by_cases hs : s ∈ idSentinels
      · have h1 : normalizeIdValue (Value.VStr s) = Value.VNull := by
          unfold normalizeIdValue normalizeIdWith
          simp [hs]
        rw [h1]
        rfl
      · cases hp : String.toInt? s with
        | none =>
          have h1 : normalizeIdValue (Value.VStr s) = Value.VNull := by
            unfold normalizeIdValue normalizeIdWith
            simp [hs, hp]
          rw [h1]
          rfl
        | some n =>
          have h1 : normalizeIdValue (Value.VStr s) = Value.VInt n := by
            unfold normalizeIdValue normalizeIdWith
            simp [hs, hp]
          rw [h1]
          rfl

/-- Witness for C4 at a concrete sentinel and parser. -/
theorem absence_normalization_c4_witness :
    (Value.VStr "null" ∈
      [Value.VNull, Value.VStr "", Value.VStr "null", Value.VStr "None"]) ∧
    normalizeIdWith String.toInt? (Value.VStr "null") = Value.VNull :=
  ⟨by decide, absence_normalization_c4.1 String.toInt? (Value.VStr "null") (by decide)⟩

/-- C5: Chunk planning: for every total and positive chunk size, the batch
loop's half-open row ranges cover the interval from 0 to total exactly
once, adjacent in ascending non-overlapping order, every range at most one
chunk long and all ranges except possibly the final one exactly one chunk
long; the plan of an empty table is empty, and the plan is a deterministic
function of its inputs. -/
theorem chunk_planning_c5 (total size : Nat) (hs : 0 < size) :
    (total = 0 → plan total size = []) ∧
    (∀ r ∈ plan total size,
      r.1 < r.2 ∧ r.2 ≤ total ∧ r.2 - r.1 ≤ size ∧ (r.2 - r.1 = size ∨ r.2 = total)) ∧
    (plan total size).Chain' (fun a b => a.2 = b.1) ∧
    (∀ k, k < total → ∃! r : Nat × Nat, r ∈ plan total size ∧ r.1 ≤ k ∧ k < r.2) ∧
    (∀ total' size', total' = total → size' = size →
      plan total' size' = plan total size) := by
  refine ⟨?_, ?_, ?_, ?_, ?_⟩
  · intro h0
    subst h0
    simp [plan, numChunks_zero]
  · intro r hr
    rcases List.mem_map.mp hr with ⟨st, hst, hrst⟩
    rcases List.mem_range'.mp hst with ⟨i, hi, hsti⟩
    rw [Nat.zero_add] at hsti
    subst hsti
    subst hrst
    have hlt : size * i < total := start_lt_total hs hi
    refine ⟨?_, min_le_right _ _, ?_, ?_⟩
    · exact lt_min (by omega) hlt
    · have hmin : min (size * i + size) total ≤ size * i + size := min_le_left _ _
      show min (size * i + size) total - size * i ≤ size
      omega
    · rcases le_total (size * i + size) total with h | h
      · left
        rw [min_eq_left h]
        omega
      · right
        exact min_eq_right h
  · rw [List.chain'_iff_get]
    intro i hi
    rw [plan, List.length_map, List.length_range'] at hi
    have hgetl : (plan total size).get ⟨i, by
        rw [plan, List.length_map, List.length_range']
        omega⟩ = (size * i, min (size * i + size) total) := by
      simp only [plan, List.get_eq_getElem, List.getElem_map, List.getElem_range']
      rw [Nat.zero_add]
    have hgetr : (plan total size).get ⟨i + 1, by
        rw [plan, List.length_map, List.length_range']
        omega⟩ = (size * (i + 1), min (size * (i + 1) + size) total) := by
      simp only [plan, List.get_eq_getElem, List.getElem_map, List.getElem_range']
      rw [Nat.zero_add]
    rw [hgetl, hgetr]
    show min (size * i + size) total = size * (i + 1)
    have hlt : size * (i + 1) < total := start_lt_total hs (by omega)
    rw [Nat.mul_succ] at hlt ⊢
    exact min_eq_left (le_of_lt hlt)
  · intro k hk
    have hdivlt : k / size < numChunks total size := by
      rw [Nat.div_lt_iff_lt_mul hs]
      exact lt_of_lt_of_le hk (le_numChunks_mul hs total)
    have hmemst : size * (k / size) ∈ List.range' 0 (numChunks total size) size :=
      List.mem_range'.mpr ⟨k / size, hdivlt, by rw [Nat.zero_add]⟩
    have hmem : (size * (k / size), min (size * (k / size) + size) total) ∈
        plan total size := by
      unfold plan
      exact List.mem_map_of_mem _ hmemst
    have hdm : size * (k / size) + k % size = k := Nat.div_add_mod k size
    have hmod : k % size < size := Nat.mod_lt k hs
    refine ⟨(size * (k / size), min (size * (k / size) + size) total),
      ⟨hmem, ?_, ?_⟩, ?_⟩
    · show size * (k / size) ≤ k
      omega
    · show k < min (size * (k / size) + size) total
      refine lt_min ?_ hk
      omega
    · rintro r ⟨hrmem, hrlo, hrhi⟩
      rcases List.mem_map.mp hrmem with ⟨st, hst, hrst⟩
      rcases List.mem_range'.mp hst with ⟨j, hj, hstj⟩
      rw [Nat.zero_add] at hstj
      subst hstj
      subst hrst
      have hjlo : j * size ≤ k := by
        rw [Nat.mul_comm]
        exact hrlo
      have hjhi : k < (j + 1) * size := by
        have := lt_of_lt_of_le hrhi (min_le_left _ _)
        rw [Nat.succ_mul]
        rw [Nat.mul_comm size j] at this
        exact this
      have hdiv : k / size = j := Nat.div_eq_of_lt_le hjlo hjhi
      rw [hdiv]
  · intro total' size' h1 h2
    rw [h1, h2]

/-- Witness for C5 with a plan that has a full and a short trailing chunk. -/
theorem chunk_planning_c5_witness :
    0 < 2 ∧
    ((5 = 0 → plan 5 2 = []) ∧
    (∀ r ∈ plan 5 2,
      r.1 < r.2 ∧ r.2 ≤ 5 ∧ r.2 - r.1 ≤ 2 ∧ (r.2 - r.1 = 2 ∨ r.2 = 5)) ∧
    (plan 5 2).Chain' (fun a b => a.2 = b.1) ∧
    (∀ k, k < 5 → ∃! r : Nat × Nat, r ∈ plan 5 2 ∧ r.1 ≤ k ∧ k < r.2) ∧
    (∀ total' size', total' = 5 → size' = 2 → plan total' size' = plan 5 2)) :=
  ⟨by decide, chunk_planning_c5 5 2 (by decide)⟩

theorem mem_of_mem_chunksOf {α : Type} {bs : Nat} (hbs : 0 < bs) {rows c : List α}
    {r : α} (hc : c ∈ chunksOf bs rows) (hr : r ∈ c) : r ∈ rows := by
  rw [← chunksOf_flatten hbs rows]
  exact List.mem_flatten.mpr ⟨c, hc, hr⟩

/-- C2 (amended): in the phase-2 re-aggregation of the stability analysis,
the final employment_rate of a (participantId, month) group is the
UNWEIGHTED arithmetic mean of the per-chunk employment rates (one rate per
chunk containing rows of the group, each the employed fraction within that
chunk alone), and the final avg_balance is likewise the unweighted mean of
the per-chunk balance means — not the weighted sum-and-count combination
prescribed by the spec. -/
theorem stability_mean_of_means_c2 (monthOf : Nat → Nat) {bs : Nat} (hbs : 0 < bs)
    (rows : List StatusRow) (p : Option Int) (m : Option Nat)
    (hmem : ∃ r ∈ rows, monthKey monthOf r = (p, m)) :
    ∃ e ∈ (analyze_employment_stability monthOf bs rows).rows,
      e.participantId = p ∧ e.month = m ∧
      e.employment_rate = some
        (((contribChunks monthOf bs rows (p, m)).map
            (chunkEmploymentRate monthOf (p, m))).sum /
          ((contribChunks monthOf bs rows (p, m)).length : ℚ)) ∧
      e.avg_balance = meanOpt ((contribChunks monthOf bs rows (p, m)).map
        (fun c => meanOpt ((stabGroupRows monthOf (p, m) c).map
          (fun r => r.availableBalance)))) := by
  rcases stability_row_at_key monthOf hbs rows (p, m) hmem with
    ⟨hcontrib, e, he, hpid, hmonth, hrate, hjc, hbal, hscore⟩
  refine ⟨e, he, hpid, hmonth, ?_, ?_⟩
  · rw [hrate]
    have hmap : (contribChunks monthOf bs rows (p, m)).map
        (fun c => (chunkStabPartial monthOf (p, m) c).employment_rate) =
        ((contribChunks monthOf bs rows (p, m)).map
          (chunkEmploymentRate monthOf (p, m))).map some := by
      rw [List.map_map]
      refine List.map_congr_left ?_
      intro c hc
      exact chunkStabPartial_rate (mem_contribChunks_iff.mp hc).2
    rw [hmap, meanOpt_map_some, List.length_map]
    intro hnil
    rw [List.map_eq_nil_iff] at hnil
    exact hcontrib hnil
  · rw [hbal]
    congr 1

/-- C3 (amended): the final job_changes of a (participantId, month) group
is the SUM over the contributing chunks of the per-chunk distinct
job-identifier counts: a distinct job identifier appearing in several
chunks is counted once per chunk in which it appears, not once overall. -/
theorem distinct_count_per_chunk_sum_c3 (monthOf : Nat → Nat) {bs : Nat}
    (hbs : 0 < bs) (rows : List StatusRow) (p : Option Int) (m : Option Nat)
    (hmem : ∃ r ∈ rows, monthKey monthOf r = (p, m)) :
    ∃ e ∈ (analyze_employment_stability monthOf bs rows).rows,
      e.participantId = p ∧ e.month = m ∧
      e.job_changes = ((contribChunks monthOf bs rows (p, m)).map
        (fun c => nUnique ((stabGroupRows monthOf (p, m) c).map
          (fun r => r.jobId)))).sum := by
  rcases stability_row_at_key monthOf hbs rows (p, m) hmem with
    ⟨-, e, he, hpid, hmonth, -, hjc, -, -⟩
  exact ⟨e, he, hpid, hmonth, hjc⟩

/-- C6 (amended): a (participantId, month) stability group all of whose
availableBalance observations are absent is NOT dropped: it appears in the
final stability table with an absent avg_balance (the filters test
employment_rate, which is never absent for a non-empty group). -/
theorem all_absent_balance_group_retained_c6 (monthOf : Nat → Nat) {bs : Nat}
    (hbs : 0 < bs) (rows : List StatusRow) (p : Option Int) (m : Option Nat)
    (hmem : ∃ r ∈ rows, monthKey monthOf r = (p, m))
    (hbal : ∀ r ∈ rows, monthKey monthOf r = (p, m) → r.availableBalance = none) :
    ∃ e ∈ (analyze_employment_stability monthOf bs rows).rows,
      e.participantId = p ∧ e.month = m ∧ e.avg_balance = none := by
  rcases stability_row_at_key monthOf hbs rows (p, m) hmem with
    ⟨-, e, he, hpid, hmonth, -, -, hbalance, -⟩
  refine ⟨e, he, hpid, hmonth, ?_⟩
  rw [hbalance]
  refine meanOpt_all_none ?_
  intro x hx
  rcases List.mem_map.mp hx with ⟨c, hc, hcx⟩
  rw [← hcx]
  show (chunkStabPartial monthOf (p, m) c).avg_balance = none
  show meanOpt ((stabGroupRows monthOf (p, m) c).map (fun r => r.availableBalance)) = none
  refine meanOpt_all_none ?_
  intro y hy
  rcases List.mem_map.mp hy with ⟨r, hr, hry⟩
  rcases List.mem_filter.mp hr with ⟨hrc, hrk⟩
  have hrrows : r ∈ rows := mem_of_mem_chunksOf hbs (mem_contribChunks_iff.mp hc).1 hrc
  rw [← hry]
  exact hbal r hrrows (by simpa using hrk)

theorem monthKey_none_iff {monthOf : Nat → Nat} {r : StatusRow} {p : Option Int} :
    monthKey monthOf r = (p, none) ↔ r.participantId = p ∧ r.timestamp = none := by
  unfold monthKey
  rw [Prod.mk.injEq]
  constructor
  · rintro ⟨h1, h2⟩
    exact ⟨h1, Option.map_eq_none'.mp h2⟩
  · rintro ⟨h1, h2⟩
    refine ⟨h1, ?_⟩
    rw [h2]
    rfl

/-- C10 (amended): a row whose timestamp fails to parse is retained (the
normalized table has exactly one row per raw row) with an absent
timestamp; the stability analysis groups such rows under an absent month
key, and in a run whose table fits in one chunk, for every participant
with at least one absent-timestamp row the stability output contains a
(participant, absent-month) group whose employment_rate, job_changes and
avg_balance are computed over exactly the absent-timestamp rows of that
participant.  In a multi-chunk run the group still exists but its fields
are the phase-2 recombination of the per-chunk slices (sum of per-chunk
distinct counts, unweighted mean of per-chunk rates), which differs; see
the counterexample. -/
theorem absent_timestamp_group_c10 (parseTs : String → Option Nat)
    (parseDec : String → Option ℚ) (monthOf : Nat → Nat) {bs : Nat} (hbs : 0 < bs)
    (raws : List RawStatusRow) (p : Option Int) (hlen : raws.length ≤ bs)
    (hmem : ∃ raw ∈ raws, raw.participantId.bind String.toInt? = p ∧
      raw.timestamp.bind parseTs = none) :
    (raws.map (normalizeStatusRow parseTs parseDec)).length = raws.length ∧
    stabGroupRows monthOf (p, none) (raws.map (normalizeStatusRow parseTs parseDec)) =
      (raws.map (normalizeStatusRow parseTs parseDec)).filter
        (fun r => r.participantId = p ∧ r.timestamp = none) ∧
    ∃ e ∈ (analyze_employment_stability monthOf bs
        (raws.map (normalizeStatusRow parseTs parseDec))).rows,
      e.participantId = p ∧ e.month = none ∧
      e.employment_rate = some
        (((stabGroupRows monthOf (p, none)
            (raws.map (normalizeStatusRow parseTs parseDec))).countP
              (fun r => r.jobId.isSome) : ℚ) /
          ((stabGroupRows monthOf (p, none)
            (raws.map (normalizeStatusRow parseTs parseDec))).length : ℚ)) ∧
      e.job_changes = nUnique ((stabGroupRows monthOf (p, none)
        (raws.map (normalizeStatusRow parseTs parseDec))).map (fun r => r.jobId)) ∧
      e.avg_balance = meanOpt ((stabGroupRows monthOf (p, none)
        (raws.map (normalizeStatusRow parseTs parseDec))).map
          (fun r => r.availableBalance)) := by
  refine ⟨List.length_map _ _, ?_, ?_⟩
  · unfold stabGroupRows
    refine List.filter_congr ?_
    intro r _
    simp only [decide_eq_decide]
    exact monthKey_none_iff
  · rcases hmem with ⟨raw, hraw, hpid, hts⟩
    have hmem2 : ∃ r ∈ raws.map (normalizeStatusRow parseTs parseDec),
        monthKey monthOf r = (p, none) := by
      refine ⟨normalizeStatusRow parseTs parseDec raw, List.mem_map_of_mem _ hraw, ?_⟩
      refine monthKey_none_iff.mpr ⟨hpid, ?_⟩
      show raw.timestamp.bind parseTs = none
      exact hts
    have hne : raws.map (normalizeStatusRow parseTs parseDec) ≠ [] := by
      rcases hmem2 with ⟨r, hr, -⟩
      intro h0
      rw [h0] at hr
      exact List.not_mem_nil r hr
    have hlen2 : (raws.map (normalizeStatusRow parseTs parseDec)).length ≤ bs := by
      rw [List.length_map]
      exact hlen
    have hchunks : chunksOf bs (raws.map (normalizeStatusRow parseTs parseDec)) =
        [raws.map (normalizeStatusRow parseTs parseDec)] :=
      chunksOf_of_length_le hbs hlen2 hne
    have hgne : stabGroupRows monthOf (p, none)
        (raws.map (normalizeStatusRow parseTs parseDec)) ≠ [] := by
      rcases hmem2 with ⟨r, hr, hrk⟩
      exact stabGroupRows_ne_nil_iff.mpr ⟨r, hr, hrk⟩
    have hcc : contribChunks monthOf bs (raws.map (normalizeStatusRow parseTs parseDec))
        (p, none) = [raws.map (normalizeStatusRow parseTs parseDec)] := by
      unfold contribChunks
      rw [hchunks]
      have hpred : (!(stabGroupRows monthOf (p, none)
          (raws.map (normalizeStatusRow parseTs parseDec))).isEmpty) = true := by
        cases hX : (stabGroupRows monthOf (p, none)
            (raws.map (normalizeStatusRow parseTs parseDec))).isEmpty
        · rfl
        · exact absurd (List.isEmpty_iff.mp hX) hgne
      simp [List.filter_cons, hpred]
    rcases stability_row_at_key monthOf hbs
        (raws.map (normalizeStatusRow parseTs parseDec)) (p, none) hmem2 with
      ⟨-, e, he, hepid, hemonth, hrate, hjc, hbal, -⟩
    refine ⟨e, he, hepid, hemonth, ?_, ?_, ?_⟩
    · rw [hrate, hcc, List.map_cons, List.map_nil, meanOpt_singleton,
        chunkStabPartial_rate hgne]
      rfl
    · rw [hjc, hcc, List.map_cons, List.map_nil, List.sum_cons, List.sum_nil]
      rfl
    · rw [hbal, hcc, List.map_cons, List.map_nil, meanOpt_singleton]
      rfl

/-- C1 (amended): chunking invariance holds whenever no phase-1 grouping
key spans a chunk boundary: if rows in distinct chunks never share a
(participantId, month) stability key nor a (participantId, jobId) employed
pair, the chunked two-phase pipeline produces, for both analyses, exactly
the tables of a single unchunked pass (a run whose chunk size is at least
the whole table).  In general (groups split across chunks) the equality
fails; see the counterexample. -/
theorem chunking_invariance_c1 (monthOf : Nat → Nat) (lookup : Int → Option Int)
    {bs bs2 : Nat} (rows : List StatusRow) (hbs : 0 < bs) (hbs2 : 0 < bs2)
    (hlen : rows.length ≤ bs2)
    (hstab : (chunksOf bs rows).Pairwise (stabChunksDisjoint monthOf))
    (hturn : (chunksOf bs rows).Pairwise turnChunksDisjoint) :
    calculate_turnover_rates monthOf lookup bs rows =
      calculate_turnover_rates monthOf lookup bs2 rows ∧
    analyze_employment_stability monthOf bs rows =
      analyze_employment_stability monthOf bs2 rows := by
  have hpoolT : turnoverPool monthOf lookup bs rows =
      turnoverPool monthOf lookup bs2 rows := by
    rw [turnoverPool_eq_of_disjoint monthOf lookup hbs rows hturn,
      turnoverPool_eq_of_disjoint monthOf lookup hbs2 rows
        (pairwise_chunksOf_of_le hbs2 hlen)]
  have hpoolS : stabilityPool monthOf bs rows = stabilityPool monthOf bs2 rows := by
    rw [stabilityPool_eq_of_disjoint monthOf hbs rows hstab,
      stabilityPool_eq_of_disjoint monthOf hbs2 rows
        (pairwise_chunksOf_of_le hbs2 hlen)]
  constructor
  · unfold calculate_turnover_rates
    rw [hpoolT]
  · unfold analyze_employment_stability
    rw [hpoolS]

/-- Witness for C1 at a two-chunk run in which each participant's rows lie
entirely within one chunk, compared against a single-chunk run. -/
theorem chunking_invariance_c1_witness :
    (0 < 2 ∧ 0 < 5 ∧
      ([(⟨some 1, some 0, none, some 10, some 0⟩ : StatusRow),
        ⟨some 1, some 1, none, some 10, some 0⟩,
        ⟨some 2, some 2, none, some 11, some 0⟩,
        ⟨some 2, some 3, none, none, some 0⟩] : List StatusRow).length ≤ 5 ∧
      (chunksOf 2 [(⟨some 1, some 0, none, some 10, some 0⟩ : StatusRow),
        ⟨some 1, some 1, none, some 10, some 0⟩,
        ⟨some 2, some 2, none, some 11, some 0⟩,
        ⟨some 2, some 3, none, none, some 0⟩]).Pairwise
          (stabChunksDisjoint (fun _ => 0)) ∧
      (chunksOf 2 [(⟨some 1, some 0, none, some 10, some 0⟩ : StatusRow),
        ⟨some 1, some 1, none, some 10, some 0⟩,
        ⟨some 2, some 2, none, some 11, some 0⟩,
        ⟨some 2, some 3, none, none, some 0⟩]).Pairwise turnChunksDisjoint) ∧
    (calculate_turnover_rates (fun _ => 0) (fun j => some (j + 100)) 2
        [⟨some 1, some 0, none, some 10, some 0⟩,
         ⟨some 1, some 1, none, some 10, some 0⟩,
         ⟨some 2, some 2, none, some 11, some 0⟩,
         ⟨some 2, some 3, none, none, some 0⟩] =
      calculate_turnover_rates (fun _ => 0) (fun j => some (j + 100)) 5
        [⟨some 1, some 0, none, some 10, some 0⟩,
         ⟨some 1, some 1, none, some 10, some 0⟩,
         ⟨some 2, some 2, none, some 11, some 0⟩,
         ⟨some 2, some 3, none, none, some 0⟩] ∧
    analyze_employment_stability (fun _ => 0) 2
        [⟨some 1, some 0, none, some 10, some 0⟩,
         ⟨some 1, some 1, none, some 10, some 0⟩,
         ⟨some 2, some 2, none, some 11, some 0⟩,
         ⟨some 2, some 3, none, none, some 0⟩] =
      analyze_employment_stability (fun _ => 0) 5
        [⟨some 1, some 0, none, some 10, some 0⟩,
         ⟨some 1, some 1, none, some 10, some 0⟩,
         ⟨some 2, some 2, none, some 11, some 0⟩,
         ⟨some 2, some 3, none, none, some 0⟩]) :=
  ⟨⟨by decide, by decide, by decide, by decide, by decide⟩,
    chunking_invariance_c1 (fun _ => 0) (fun j => some (j + 100)) _
      (by decide) (by decide) (by decide) (by decide) (by decide)⟩

/-- C1 counterexample: on a three-row table whose single (participantId,
month) group and single (participantId, jobId) pair straddle the boundary
between two chunks of size 2, the chunked pipeline (chunk size 2) and the
unchunked pass (chunk size 3 covers the whole table) disagree: the
stability job_changes column reads 2 against 1, and the turnover new_hires
column reads 2 against 1, so both final tables differ. -/
theorem chunking_invariance_c1_counterexample :
    ((analyze_employment_stability (fun _ => 0) 2
        [⟨some 1, some 0, none, some 10, some 0⟩,
         ⟨some 1, some 1, none, some 10, some 0⟩,
         ⟨some 1, some 2, none, some 10, some 0⟩]).rows.map
      (fun e => e.job_changes) = [2]) ∧
    ((analyze_employment_stability (fun _ => 0) 3
        [⟨some 1, some 0, none, some 10, some 0⟩,
         ⟨some 1, some 1, none, some 10, some 0⟩,
         ⟨some 1, some 2, none, some 10, some 0⟩]).rows.map
      (fun e => e.job_changes) = [1]) ∧
    analyze_employment_stability (fun _ => 0) 2
        [⟨some 1, some 0, none, some 10, some 0⟩,
         ⟨some 1, some 1, none, some 10, some 0⟩,
         ⟨some 1, some 2, none, some 10, some 0⟩] ≠
      analyze_employment_stability (fun _ => 0) 3
        [⟨some 1, some 0, none, some 10, some 0⟩,
         ⟨some 1, some 1, none, some 10, some 0⟩,
         ⟨some 1, some 2, none, some 10, some 0⟩] ∧
    ((calculate_turnover_rates (fun _ => 0) (fun j => some (j + 100)) 2
        [⟨some 1, some 0, none, some 10, some 0⟩,
         ⟨some 1, some 1, none, some 10, some 0⟩,
         ⟨some 1, some 2, none, some 10, some 0⟩]).rows.map
      (fun e => e.new_hires) = [2]) ∧
    ((calculate_turnover_rates (fun _ => 0) (fun j => some (j + 100)) 3
        [⟨some 1, some 0, none, some 10, some 0⟩,
         ⟨some 1, some 1, none, some 10, some 0⟩,
         ⟨some 1, some 2, none, some 10, some 0⟩]).rows.map
      (fun e => e.new_hires) = [1]) ∧
    calculate_turnover_rates (fun _ => 0) (fun j => some (j + 100)) 2
        [⟨some 1, some 0, none, some 10, some 0⟩,
         ⟨some 1, some 1, none, some 10, some 0⟩,
         ⟨some 1, some 2, none, some 10, some 0⟩] ≠
      calculate_turnover_rates (fun _ => 0) (fun j => some (j + 100)) 3
        [⟨some 1, some 0, none, some 10, some 0⟩,
         ⟨some 1, some 1, none, some 10, some 0⟩,
         ⟨some 1, some 2, none, some 10, some 0⟩] := by
  refine ⟨by decide, by decide, ?_, by decide, by decide, ?_⟩
  · intro h
    have h2 := congrArg (fun d => d.rows.map (fun e => e.job_changes)) h
    revert h2
    decide
  · intro h
    have h2 := congrArg (fun d => d.rows.map (fun e => e.new_hires)) h
    revert h2
    decide

/-- C9: turnover-table bounds: every row of the final turnover table has
new_hires at least 1 and a turnover_rate between 0 and 1 (so the defining
division never divides by zero), and every tenure record contributing to
the pool has non-negative tenure_days, the negative-tenure filter having
discarded the rest. -/
theorem turnover_bounds_c9 (monthOf : Nat → Nat) (lookup : Int → Option Int)
    (bs : Nat) (rows : List StatusRow) :
    (∀ e ∈ (calculate_turnover_rates monthOf lookup bs rows).rows,
      1 ≤ e.new_hires ∧ 0 ≤ e.turnover_rate ∧ e.turnover_rate ≤ 1) ∧
    (∀ t ∈ turnoverPool monthOf lookup bs rows, 0 ≤ t.tenure_days) := by
  have hpool : ∀ t ∈ turnoverPool monthOf lookup bs rows, 0 ≤ t.tenure_days := by
    intro t ht
    rcases List.mem_flatten.mp ht with ⟨l, hl, htl⟩
    rcases List.mem_map.mp hl with ⟨c, -, hcl⟩
    rw [← hcl] at htl
    unfold batchTenure at htl
    rcases List.mem_filterMap.mp htl with ⟨a, -, hfin⟩
    unfold tenureFinalize at hfin
    cases hsd : a.start_date with
    | none =>
      rw [hsd] at hfin
      exact Option.noConfusion hfin
    | some s =>
      cases hed : a.end_date with
      | none =>
        rw [hsd, hed] at hfin
        exact Option.noConfusion hfin
      | some e =>
        rw [hsd, hed] at hfin
        dsimp only at hfin
        by_cases hd : 0 ≤ ((e : Int) - (s : Int)) / secondsPerDay
        · rw [if_pos hd] at hfin
          have := Option.some.inj hfin
          rw [← this]
          exact hd
        · rw [if_neg hd] at hfin
          exact Option.noConfusion hfin
  refine ⟨?_, hpool⟩
  intro e he
  cases hX : (turnoverPool monthOf lookup bs rows).isEmpty
  · simp only [calculate_turnover_rates, hX, Bool.false_eq_true, if_false] at he
    rcases List.mem_map.mp he with ⟨k, hk, hke⟩
    have hgne : (turnoverPool monthOf lookup bs rows).filter
        (fun t => turnKey2 t = k) ≠ [] := filter_key_ne_nil (mem_keys_iff.mp hk)
    have hlen : 1 ≤ ((turnoverPool monthOf lookup bs rows).filter
        (fun t => turnKey2 t = k)).length := by
      rcases List.exists_mem_of_ne_nil _ hgne with ⟨t, htmem⟩
      have := List.length_pos.mpr hgne
      omega
    subst hke
    refine ⟨hlen, ?_, ?_⟩
    · show (0 : ℚ) ≤ _ / _
      refine div_nonneg ?_ ?_
      · exact_mod_cast Nat.zero_le _
      · exact_mod_cast Nat.zero_le _
    · show (_ : ℚ) / _ ≤ 1
      rw [div_le_one (by exact_mod_cast hlen)]
      exact_mod_cast List.countP_le_length _
  · simp only [calculate_turnover_rates, hX, if_true] at he
    exact absurd he (List.not_mem_nil e)

/-- C7 (amended): when no partial-aggregate data survives any chunk, both
analyses return explicitly empty, typed tables rather than failing: the
empty turnover table carries exactly the columns month, employerId,
new_hires, avg_tenure_days, turnover_rate, while the empty stability table
carries exactly participantId, month, employment_rate, job_changes,
avg_balance — WITHOUT the stability_score column that every non-empty
stability table carries. -/
theorem empty_pool_result_c7 (monthOf : Nat → Nat) (lookup : Int → Option Int)
    (bs : Nat) (rows : List StatusRow)
    (hturn : turnoverPool monthOf lookup bs rows = [])
    (hstab : stabilityPool monthOf bs rows = []) :
    calculate_turnover_rates monthOf lookup bs rows =
      { schema := ["month", "employerId", "new_hires", "avg_tenure_days",
          "turnover_rate"], rows := [] } ∧
    analyze_employment_stability monthOf bs rows =
      { schema := ["participantId", "month", "employment_rate", "job_changes",
          "avg_balance"], rows := [] } := by
  constructor
  · simp only [calculate_turnover_rates, hturn, List.isEmpty_nil, if_true]
  · simp only [analyze_employment_stability, hstab, List.isEmpty_nil, if_true]

/-- Witness for C7 on an empty input table. -/
theorem empty_pool_result_c7_witness :
    (turnoverPool (fun _ => 0) (fun j => some j) 1 [] = [] ∧
      stabilityPool (fun _ => 0) 1 [] = []) ∧
    (calculate_turnover_rates (fun _ => 0) (fun j => some j) 1 [] =
      { schema := ["month", "employerId", "new_hires", "avg_tenure_days",
          "turnover_rate"], rows := [] } ∧
    analyze_employment_stability (fun _ => 0) 1 [] =
      { schema := ["participantId", "month", "employment_rate", "job_changes",
          "avg_balance"], rows := [] }) :=
  ⟨⟨by decide, by decide⟩,
    empty_pool_result_c7 (fun _ => 0) (fun j => some j) 1 [] (by decide) (by decide)⟩

/-- C7 counterexample: on an empty run the stability table the code
returns does NOT carry the six claimed columns — stability_score is
missing from the explicitly constructed empty frame. -/
theorem empty_pool_result_c7_counterexample :
    (analyze_employment_stability (fun _ => 0) 1 ([] : List StatusRow)).schema ≠
      ["participantId", "month", "employment_rate", "job_changes", "avg_balance",
        "stability_score"] ∧
    (analyze_employment_stability (fun _ => 0) 1 ([] : List StatusRow)).schema =
      ["participantId", "month", "employment_rate", "job_changes", "avg_balance"] := by
  exact ⟨by decide, by decide⟩

/-- C8 (amended): a missing participant-status-log source (zero files
matching the glob, which a missing directory also produces) or a missing
journal file makes loading fail, so the run aborts before any chunk
processing with exit status 1 and produces no employment results at all.
A missing ATTRIBUTE file, however, is never fatal at load time: whatever
attribute files are absent, loading still succeeds (the loader substitutes
empty tables) and the run proceeds into processing; and when the attribute
tables the three processors actually read (jobs, employers, participants,
apartments, restaurants, pubs) are all present, a run missing any of the
remaining attribute files (schools, buildings) finishes with exit status 0
and full employment results. -/
theorem missing_source_fatality_c8 (monthOf : Nat → Nat)
    (parseTs : String → Option Nat) (parseDec : String → Option ℚ)
    (bs : Nat) (fs : SimFS) :
    (fs.statusLogFiles = [] →
      mainRun monthOf parseTs parseDec bs fs = { exitCode := 1, employment := none }) ∧
    (fs.financialJournalPresent = false →
      mainRun monthOf parseTs parseDec bs fs = { exitCode := 1, employment := none }) ∧
    (fs.checkinJournalPresent = false →
      mainRun monthOf parseTs parseDec bs fs = { exitCode := 1, employment := none }) ∧
    (fs.travelJournalPresent = false →
      mainRun monthOf parseTs parseDec bs fs = { exitCode := 1, employment := none }) ∧
    (fs.socialNetworkPresent = false →
      mainRun monthOf parseTs parseDec bs fs = { exitCode := 1, employment := none }) ∧
    (fs.statusLogFiles ≠ [] → fs.financialJournalPresent = true →
      fs.checkinJournalPresent = true → fs.travelJournalPresent = true →
      fs.socialNetworkPresent = true →
      (load_all_data parseTs parseDec fs).isOk = true) ∧
    (fs.statusLogFiles ≠ [] → fs.financialJournalPresent = true →
      fs.checkinJournalPresent = true → fs.travelJournalPresent = true →
      fs.socialNetworkPresent = true → fs.attrPresent "jobs" = true →
      fs.attrPresent "employers" = true → fs.attrPresent "participants" = true →
      fs.attrPresent "apartments" = true → fs.attrPresent "restaurants" = true →
      fs.attrPresent "pubs" = true →
      (mainRun monthOf parseTs parseDec bs fs).exitCode = 0 ∧
      (mainRun monthOf parseTs parseDec bs fs).employment.isSome) := by
  refine ⟨?_, ?_, ?_, ?_, ?_, ?_, ?_⟩
  · intro h
    simp [mainRun, load_all_data, load_participant_status_logs, h]
  · intro h
    cases hE : fs.statusLogFiles.isEmpty
    · simp [mainRun, load_all_data, load_participant_status_logs, loadJournal, hE, h]
    · simp [mainRun, load_all_data, load_participant_status_logs, hE]
  · intro h
    cases hE : fs.statusLogFiles.isEmpty
    · cases hF : fs.financialJournalPresent
      · simp [mainRun, load_all_data, load_participant_status_logs, loadJournal, hE, hF]
      · simp [mainRun, load_all_data, load_participant_status_logs, loadJournal, hE, hF, h]
    · simp [mainRun, load_all_data, load_participant_status_logs, hE]
  · intro h
    cases hE : fs.statusLogFiles.isEmpty
    · cases hF : fs.financialJournalPresent
      · simp [mainRun, load_all_data, load_participant_status_logs, loadJournal, hE, hF]
      · cases hC : fs.checkinJournalPresent
        · simp [mainRun, load_all_data, load_participant_status_logs, loadJournal, hE, hF, hC]
        · simp [mainRun, load_all_data, load_participant_status_logs, loadJournal, hE, hF,
            hC, h]
    · simp [mainRun, load_all_data, load_participant_status_logs, hE]
  · intro h
    cases hE : fs.statusLogFiles.isEmpty
    · cases hF : fs.financialJournalPresent
      · simp [mainRun, load_all_data, load_participant_status_logs, loadJournal, hE, hF]
      · cases hC : fs.checkinJournalPresent
        · simp [mainRun, load_all_data, load_participant_status_logs, loadJournal, hE, hF, hC]
        · cases hT : fs.travelJournalPresent
          · simp [mainRun, load_all_data, load_participant_status_logs, loadJournal, hE, hF,
              hC, hT]
          · simp [mainRun, load_all_data, load_participant_status_logs, loadJournal, hE, hF,
              hC, hT, h]
    · simp [mainRun, load_all_data, load_participant_status_logs, hE]
  · intro hne hF hC hT hS
    have hE : fs.statusLogFiles.isEmpty = false := by
      cases hX : fs.statusLogFiles.isEmpty
      · rfl
      · exact absurd (List.isEmpty_iff.mp hX) hne
    simp [load_all_data, load_participant_status_logs, loadJournal, hE, hF, hC, hT, hS,
      Except.isOk, Except.toBool]
  · intro hne hF hC hT hS hJ hEmp hP hA hR hPu
    have hE : fs.statusLogFiles.isEmpty = false := by
      cases hX : fs.statusLogFiles.isEmpty
      · rfl
      · exact absurd (List.isEmpty_iff.mp hX) hne
    constructor
    · simp [mainRun, load_all_data, load_participant_status_logs, loadJournal,
        businessProcess, financialProcess, employmentProcess, hE, hF, hC, hT, hS,
        hJ, hEmp, hP, hA, hR, hPu]
    · simp [mainRun, load_all_data, load_participant_status_logs, loadJournal,
        businessProcess, financialProcess, employmentProcess, hE, hF, hC, hT, hS,
        hJ, hEmp, hP, hA, hR, hPu]

/-- Witness for C8: a run with no status-log files aborts with exit 1 and
no results; a fully-provisioned run exits 0. -/
theorem missing_source_fatality_c8_witness :
    (({ statusLogFiles := [], financialJournalPresent := true,
        checkinJournalPresent := true, travelJournalPresent := true,
        socialNetworkPresent := true, attrPresent := fun _ => true,
        jobsRows := [(10, 110)] } : SimFS).statusLogFiles = []) ∧
    mainRun (fun _ => 0) (fun _ => none) (fun _ => none) 1
      { statusLogFiles := [], financialJournalPresent := true,
        checkinJournalPresent := true, travelJournalPresent := true,
        socialNetworkPresent := true, attrPresent := fun _ => true,
        jobsRows := [(10, 110)] } = { exitCode := 1, employment := none } :=
  ⟨rfl, (missing_source_fatality_c8 (fun _ => 0) (fun _ => none) (fun _ => none) 1 _).1 rfl⟩

/-- C8 counterexample: a run whose schools attribute file is missing (a
required input file per the claim, which cites the attribute loader) does
not abort: loading succeeds, the whole pipeline runs, and the process
finishes with exit status 0 and full employment results. -/
theorem missing_source_fatality_c8_counterexample :
    (({ statusLogFiles := [[⟨some "t", some "1", none, some "10", none⟩]],
        financialJournalPresent := true, checkinJournalPresent := true,
        travelJournalPresent := true, socialNetworkPresent := true,
        attrPresent := fun n => !(n == "schools"),
        jobsRows := [(10, 110)] } : SimFS).attrPresent "schools" = false) ∧
    (mainRun (fun _ => 0) (fun _ => none) (fun _ => none) 1
      { statusLogFiles := [[⟨some "t", some "1", none, some "10", none⟩]],
        financialJournalPresent := true, checkinJournalPresent := true,
        travelJournalPresent := true, socialNetworkPresent := true,
        attrPresent := fun n => !(n == "schools"),
        jobsRows := [(10, 110)] }).exitCode = 0 ∧
    (mainRun (fun _ => 0) (fun _ => none) (fun _ => none) 1
      { statusLogFiles := [[⟨some "t", some "1", none, some "10", none⟩]],
        financialJournalPresent := true, checkinJournalPresent := true,
        travelJournalPresent := true, socialNetworkPresent := true,
        attrPresent := fun n => !(n == "schools"),
        jobsRows := [(10, 110)] }).employment.isSome := by
  exact ⟨by decide, by decide, by decide⟩

/-- Witness for C2 on a group split unevenly across two chunks. -/
theorem stability_mean_of_means_c2_witness :
    (0 < 2 ∧ ∃ r ∈ [(⟨some 1, some 0, none, some 10, some 0⟩ : StatusRow),
        ⟨some 1, some 1, none, some 10, some 0⟩,
        ⟨some 1, some 2, none, none, some 0⟩],
      monthKey (fun _ => 0) r = (some 1, some 0)) ∧
    (∃ e ∈ (analyze_employment_stability (fun _ => 0) 2
        [⟨some 1, some 0, none, some 10, some 0⟩,
         ⟨some 1, some 1, none, some 10, some 0⟩,
         ⟨some 1, some 2, none, none, some 0⟩]).rows,
      e.participantId = some 1 ∧ e.month = some 0 ∧
      e.employment_rate = some
        (((contribChunks (fun _ => 0) 2
            [⟨some 1, some 0, none, some 10, some 0⟩,
             ⟨some 1, some 1, none, some 10, some 0⟩,
             ⟨some 1, some 2, none, none, some 0⟩] (some 1, some 0)).map
              (chunkEmploymentRate (fun _ => 0) (some 1, some 0))).sum /
          ((contribChunks (fun _ => 0) 2
            [⟨some 1, some 0, none, some 10, some 0⟩,
             ⟨some 1, some 1, none, some 10, some 0⟩,
             ⟨some 1, some 2, none, none, some 0⟩] (some 1, some 0)).length : ℚ)) ∧
      e.avg_balance = meanOpt ((contribChunks (fun _ => 0) 2
          [⟨some 1, some 0, none, some 10, some 0⟩,
           ⟨some 1, some 1, none, some 10, some 0⟩,
           ⟨some 1, some 2, none, none, some 0⟩] (some 1, some 0)).map
        (fun c => meanOpt ((stabGroupRows (fun _ => 0) (some 1, some 0) c).map
          (fun r => r.availableBalance))))) :=
  ⟨⟨by decide, by decide⟩,
    stability_mean_of_means_c2 (fun _ => 0) (by decide) _ (some 1) (some 0) (by decide)⟩

/-- C2 counterexample: with the three rows of one group split 2 + 1 across
chunks, the code publishes employment_rate 1/2 (the unweighted mean of the
per-chunk rates 1 and 0), while the weighted sum-over-count combination
the claim asserts is 2/3; the two disagree. -/
theorem stability_mean_of_means_c2_counterexample :
    ((analyze_employment_stability (fun _ => 0) 2
        [⟨some 1, some 0, none, some 10, some 0⟩,
         ⟨some 1, some 1, none, some 10, some 0⟩,
         ⟨some 1, some 2, none, none, some 0⟩]).rows.map
      (fun e => (e.participantId, e.month, e.employment_rate))) =
        [(some 1, some 0, some (1/2 : ℚ))] ∧
    specWeightedEmploymentRate (fun _ => 0)
      [⟨some 1, some 0, none, some 10, some 0⟩,
       ⟨some 1, some 1, none, some 10, some 0⟩,
       ⟨some 1, some 2, none, none, some 0⟩] (some 1, some 0) = 2/3 ∧
    (1/2 : ℚ) ≠ 2/3 := by
  refine ⟨?_, ?_, by norm_num⟩
  · simp +decide only [analyze_employment_stability, stabilityPool, chunksOf, plan,
      numChunks, sliceOf, batchStability, groupByAgg, firstDedup, monthKey, stabAgg,
      stabAgg2, stabKey2, meanOpt, isEmployedInd, nUnique, addStabilityScore,
      List.range', List.map, List.filter, List.filterMap, List.flatten, List.sum,
      List.foldr, List.length, List.isEmpty, List.drop, List.take]
    norm_num
  · simp +decide only [specWeightedEmploymentRate, stabGroupRows, monthKey, List.filter,
      List.countP, List.countP.go, List.length]
    norm_num

/-- Witness for C3 on a job identifier seen in two different chunks. -/
theorem distinct_count_per_chunk_sum_c3_witness :
    (0 < 2 ∧ ∃ r ∈ [(⟨some 1, some 0, none, some 10, some 0⟩ : StatusRow),
        ⟨some 1, some 1, none, some 10, some 0⟩,
        ⟨some 1, some 2, none, some 10, some 0⟩],
      monthKey (fun _ => 0) r = (some 1, some 0)) ∧
    (∃ e ∈ (analyze_employment_stability (fun _ => 0) 2
        [⟨some 1, some 0, none, some 10, some 0⟩,
         ⟨some 1, some 1, none, some 10, some 0⟩,
         ⟨some 1, some 2, none, some 10, some 0⟩]).rows,
      e.participantId = some 1 ∧ e.month = some 0 ∧
      e.job_changes = ((contribChunks (fun _ => 0) 2
          [⟨some 1, some 0, none, some 10, some 0⟩,
           ⟨some 1, some 1, none, some 10, some 0⟩,
           ⟨some 1, some 2, none, some 10, some 0⟩] (some 1, some 0)).map
        (fun c => nUnique ((stabGroupRows (fun _ => 0) (some 1, some 0) c).map
          (fun r => r.jobId)))).sum) :=
  ⟨⟨by decide, by decide⟩,
    distinct_count_per_chunk_sum_c3 (fun _ => 0) (by decide) _ (some 1) (some 0)
      (by decide)⟩

/-- C3 counterexample: job 10 appears in both chunks of the same
(participant, month) group, so the published job_changes is 2 although
only one distinct job identifier occurs in the whole dataset. -/
theorem distinct_count_per_chunk_sum_c3_counterexample :
    ((analyze_employment_stability (fun _ => 0) 2
        [⟨some 1, some 0, none, some 10, some 0⟩,
         ⟨some 1, some 1, none, some 10, some 0⟩,
         ⟨some 1, some 2, none, some 10, some 0⟩]).rows.map
      (fun e => (e.participantId, e.month, e.job_changes))) = [(some 1, some 0, 2)] ∧
    specDistinctJobCount (fun _ => 0)
      [⟨some 1, some 0, none, some 10, some 0⟩,
       ⟨some 1, some 1, none, some 10, some 0⟩,
       ⟨some 1, some 2, none, some 10, some 0⟩] (some 1, some 0) = 1 ∧
    (2 : Nat) ≠ 1 :=
  ⟨by decide, by decide, by decide⟩

/-- Witness for C6 on a one-row group whose only balance is absent. -/
theorem all_absent_balance_group_retained_c6_witness :
    (0 < 1 ∧
      (∃ r ∈ [(⟨some 1, some 0, none, some 10, none⟩ : StatusRow)],
        monthKey (fun _ => 0) r = (some 1, some 0)) ∧
      (∀ r ∈ [(⟨some 1, some 0, none, some 10, none⟩ : StatusRow)],
        monthKey (fun _ => 0) r = (some 1, some 0) → r.availableBalance = none)) ∧
    (∃ e ∈ (analyze_employment_stability (fun _ => 0) 1
        [⟨some 1, some 0, none, some 10, none⟩]).rows,
      e.participantId = some 1 ∧ e.month = some 0 ∧ e.avg_balance = none) :=
  ⟨⟨by decide, by decide, by decide⟩,
    all_absent_balance_group_retained_c6 (fun _ => 0) (by decide) _ (some 1) (some 0)
      (by decide) (by decide)⟩

/-- C6 counterexample: a group all of whose availableBalance observations
are absent DOES appear in the final stability table (with an absent
avg_balance), contradicting the claim that it is silently dropped. -/
theorem all_absent_balance_group_retained_c6_counterexample :
    ∃ e ∈ (analyze_employment_stability (fun _ => 0) 1
        [⟨some 1, some 0, none, some 10, none⟩]).rows,
      e.participantId = some 1 ∧ e.month = some 0 ∧ e.avg_balance = none := by
  decide

/-- Witness for C9 on a single-record run: the unique turnover row and the
unique pool record satisfy the bounds. -/
theorem turnover_bounds_c9_witness :
    ((⟨0, 7, 1, 0, 1⟩ : TurnoverRow) ∈
      (calculate_turnover_rates (fun _ => 0) (fun _ => some 7) 1
        [⟨some 1, some 0, none, some 10, some 0⟩]).rows) ∧
    (1 ≤ (⟨0, 7, 1, 0, 1⟩ : TurnoverRow).new_hires ∧
      0 ≤ (⟨0, 7, 1, 0, 1⟩ : TurnoverRow).turnover_rate ∧
      (⟨0, 7, 1, 0, 1⟩ : TurnoverRow).turnover_rate ≤ 1) ∧
    ((⟨some 1, 10, 7, 0, 0, 0, 0⟩ : JobTenureRecord) ∈
      turnoverPool (fun _ => 0) (fun _ => some 7) 1
        [⟨some 1, some 0, none, some 10, some 0⟩]) ∧
    0 ≤ (⟨some 1, 10, 7, 0, 0, 0, 0⟩ : JobTenureRecord).tenure_days := by
  have hrows : (calculate_turnover_rates (fun _ => 0) (fun _ => some 7) 1
      [⟨some 1, some 0, none, some 10, some 0⟩]).rows = [⟨0, 7, 1, 0, 1⟩] := by
    simp +decide only [calculate_turnover_rates, turnoverPool, chunksOf, plan, numChunks,
      sliceOf, batchTenure, groupByAgg, firstDedup, employmentPeriods, employedTriples,
      tenureKey, tenureAgg, tenureFinalize, listMinOpt, listMaxOpt, turnKey2, turnAgg2,
      secondsPerDay, List.range', List.map, List.filter, List.filterMap, List.flatten,
      List.sum, List.foldr, List.length, List.isEmpty, List.drop, List.take, List.countP,
      List.countP.go]
    norm_num
  have hmem : (⟨0, 7, 1, 0, 1⟩ : TurnoverRow) ∈
      (calculate_turnover_rates (fun _ => 0) (fun _ => some 7) 1
        [⟨some 1, some 0, none, some 10, some 0⟩]).rows := by
    rw [hrows]
    exact List.mem_singleton.mpr rfl
  have hpoolmem : (⟨some 1, 10, 7, 0, 0, 0, 0⟩ : JobTenureRecord) ∈
      turnoverPool (fun _ => 0) (fun _ => some 7) 1
        [⟨some 1, some 0, none, some 10, some 0⟩] := by
    decide
  exact ⟨hmem,
    (turnover_bounds_c9 (fun _ => 0) (fun _ => some 7) 1
      [⟨some 1, some 0, none, some 10, some 0⟩]).1 _ hmem,
    hpoolmem,
    (turnover_bounds_c9 (fun _ => 0) (fun _ => some 7) 1
      [⟨some 1, some 0, none, some 10, some 0⟩]).2 _ hpoolmem⟩

/-- Witness for C10 on a raw row whose timestamp text fails to parse. -/
theorem absent_timestamp_group_c10_witness :
    (0 < 1 ∧
      ([(⟨some "zz", none, none, some "10", none⟩ : RawStatusRow)]).length ≤ 1 ∧
      (∃ raw ∈ [(⟨some "zz", none, none, some "10", none⟩ : RawStatusRow)],
        raw.participantId.bind String.toInt? = none ∧
        raw.timestamp.bind (fun _ => (none : Option Nat)) = none)) ∧
    (([(⟨some "zz", none, none, some "10", none⟩ : RawStatusRow)].map
        (normalizeStatusRow (fun _ => none) (fun _ => none))).length =
      ([(⟨some "zz", none, none, some "10", none⟩ : RawStatusRow)]).length ∧
    stabGroupRows (fun _ => 0) (none, none)
        ([(⟨some "zz", none, none, some "10", none⟩ : RawStatusRow)].map
          (normalizeStatusRow (fun _ => none) (fun _ => none))) =
      ([(⟨some "zz", none, none, some "10", none⟩ : RawStatusRow)].map
          (normalizeStatusRow (fun _ => none) (fun _ => none))).filter
        (fun r => r.participantId = none ∧ r.timestamp = none) ∧
    ∃ e ∈ (analyze_employment_stability (fun _ => 0) 1
        ([(⟨some "zz", none, none, some "10", none⟩ : RawStatusRow)].map
          (normalizeStatusRow (fun _ => none) (fun _ => none)))).rows,
      e.participantId = none ∧ e.month = none ∧
      e.employment_rate = some
        (((stabGroupRows (fun _ => 0) (none, none)
            ([(⟨some "zz", none, none, some "10", none⟩ : RawStatusRow)].map
              (normalizeStatusRow (fun _ => none) (fun _ => none)))).countP
              (fun r => r.jobId.isSome) : ℚ) /
          ((stabGroupRows (fun _ => 0) (none, none)
            ([(⟨some "zz", none, none, some "10", none⟩ : RawStatusRow)].map
              (normalizeStatusRow (fun _ => none) (fun _ => none)))).length : ℚ)) ∧
      e.job_changes = nUnique ((stabGroupRows (fun _ => 0) (none, none)
        ([(⟨some "zz", none, none, some "10", none⟩ : RawStatusRow)].map
          (normalizeStatusRow (fun _ => none) (fun _ => none)))).map
            (fun r => r.jobId)) ∧
      e.avg_balance = meanOpt ((stabGroupRows (fun _ => 0) (none, none)
        ([(⟨some "zz", none, none, some "10", none⟩ : RawStatusRow)].map
          (normalizeStatusRow (fun _ => none) (fun _ => none)))).map
            (fun r => r.availableBalance))) :=
  ⟨⟨by decide, by decide, by decide⟩,
    absent_timestamp_group_c10 (fun _ => none) (fun _ => none) (fun _ => 0) (by decide)
      [⟨some "zz", none, none, some "10", none⟩] none (by decide) (by decide)⟩

/-- C10 counterexample: when the absent-timestamp rows of one participant
span two chunks (three unparseable-timestamp rows, chunk size 2), the
published job_changes of the (participant, absent-month) group is the
per-chunk distinct-count sum 2, not the count 1 computed over exactly
those rows, so the unrestricted claim fails for multi-chunk runs. -/
theorem absent_timestamp_group_c10_counterexample :
    ((analyze_employment_stability (fun _ => 0) 2
        ([(⟨some "zz", none, none, none, none⟩ : RawStatusRow),
          ⟨some "zz", none, none, none, none⟩,
          ⟨some "zz", none, none, none, none⟩].map
          (normalizeStatusRow (fun _ => none) (fun _ => none)))).rows.map
      (fun e => (e.participantId, e.month, e.job_changes))) = [(none, none, 2)] ∧
    nUnique ((stabGroupRows (fun _ => 0) (none, none)
        ([(⟨some "zz", none, none, none, none⟩ : RawStatusRow),
          ⟨some "zz", none, none, none, none⟩,
          ⟨some "zz", none, none, none, none⟩].map
          (normalizeStatusRow (fun _ => none) (fun _ => none)))).map
      (fun r => r.jobId)) = 1 ∧
    (2 : Nat) ≠ 1 :=
  ⟨by decide, by decide, by decide⟩

end DataViz
